import Mathlib

/-!
Verification development for the dragonegg backend bridge layer (Backend.cpp).

The C++ source is shallowly embedded: GCC declaration trees become a `Decl`
structure keyed by a numeric id, LLVM global values become `Symbol` records
held in a `CompState` (the module, the declaration identity cache, the pending
constructor/destructor lists and root sets, and the diagnostic counters).
LLVM `Constant*` values are embedded as the inductive `Const`; structural
equality of `Const` models LLVM pointer equality of uniqued constants.
Each embedded function carries the name of the source function it translates.
-/

namespace Dragonegg

/-- Backend (LLVM) types, as far as the backend source manipulates them:
`Type::getVoidTy`, integer types, pointers, arrays, the empty structure
`StructType::get(Context)` used for `extern void` objects, and function
types (of which only the variadic flag is inspected, by `emit_thunk`). -/
inductive Ty
| voidTy
| intTy (bits : Nat)
| ptrTo (t : Ty)
| arrTy (n : Nat) (t : Ty)
| structEmpty
| funcTy (varArg : Bool)
deriving DecidableEq, Repr

/-- LLVM constants as manipulated by Backend.cpp: `UndefValue::get`,
zero/default initializers (`getDefaultValue` / `Constant::getNullValue`),
integer constants, references to module globals (a `GlobalValue*` used as a
`Constant*`; `ty` is its pointer type), and `ConstantExpr` bitcasts.
The `ConstantStruct` records built for annotations are only ever appended to
`AttributeAnnotateGlobals`, which the source's `changeLLVMConstant` explicitly
excludes, so they are not modelled. -/
inductive Const
| undef (ty : Ty)
| zeroinit (ty : Ty)
| intC (n : Int) (ty : Ty)
| globalRef (sid : Nat) (ty : Ty)
| bitcast (c : Const) (ty : Ty)
deriving DecidableEq, Repr

/-- `Value::getType` restricted to our constants. -/
def Const.typeOf : Const → Ty
| .undef t => t
| .zeroinit t => t
| .intC _ t => t
| .globalRef _ t => t
| .bitcast _ t => t

/-- `TheFolder->CreateBitCast(C, Ty)`: the constant folder turns a bitcast to
the operand's own type into the operand itself, otherwise builds a
`ConstantExpr` bitcast. -/
def createBitCast (c : Const) (t : Ty) : Const :=
  if c.typeOf = t then c else Const.bitcast c t

/-- Whether the constant contains a use of the global with id `g`
(an edge in LLVM's use graph). -/
def Const.refsGlobal (g : Nat) : Const → Bool
| .undef _ => false
| .zeroinit _ => false
| .intC _ _ => false
| .globalRef s _ => s = g
| .bitcast c _ => c.refsGlobal g

/-- The effect of `Old->replaceAllUsesWith(Rep)` on a single constant, where
`Old` is the global with id `g`: every use of the global is replaced by
`rep`.  (LLVM rewrites constant users recursively through
`replaceUsesOfWithOnConstant`.) -/
def Const.replaceRef (g : Nat) (rep : Const) : Const → Const
| .globalRef s t => if s = g then rep else .globalRef s t
| .bitcast c t => .bitcast (Const.replaceRef g rep c) t
| c => c

/-- Strip `ConstantExpr` bitcasts (`Value::stripPointerCasts` on constants). -/
def Const.stripCasts : Const → Const
| .bitcast c _ => c.stripCasts
| c => c

/-- The id of the global a constant is a (possibly cast) reference to. -/
def Const.constSid : Const → Option Nat
| .globalRef s _ => some s
| .bitcast c _ => c.constSid
| _ => none

/-! ### The integer-index namespace of the declaration identity cache
(`set_decl_index` / `get_decl_index`, Backend.cpp lines 146-164).

The cache cell (`llvm_set_cached` / `llvm_get_cached` storage) holds a
pointer-sized machine word; the empty cell reads as 0 (null).  We model the
cell contents as a mathematical integer together with the explicit
truncations performed by the source's `(intptr_t)` and `(int)` casts. -/

/-- Two's-complement truncation to a signed `w`-bit machine integer. -/
def truncSigned (w : Nat) (x : Int) : Int :=
  (x + 2 ^ (w - 1)) % 2 ^ w - 2 ^ (w - 1)

/-- `llvm_set_cached(t, v)`: store a word in the cache cell of declaration
`t`.  A cell never written holds 0 (null). -/
def llvm_set_cached (cache : Nat → Int) (t : Nat) (v : Int) : Nat → Int :=
  fun t2 => if t2 = t then v else cache t2

/-- `llvm_get_cached(t)`: read the cache cell of declaration `t`. -/
def llvm_get_cached (cache : Nat → Int) (t : Nat) : Int :=
  cache t

/-- `set_decl_index(t, i)`: store `(void *)(intptr_t)(-i - 1)` so that the
range 0 .. INT_MAX maps to -1 .. INT_MIN, keeping 0 free to mean "unset"
(source lines 146-155).  The `(intptr_t)` cast is a 64-bit truncation. -/
def set_decl_index (cache : Nat → Int) (t : Nat) (i : Int) : Nat → Int :=
  llvm_set_cached cache t (truncSigned 64 (-i - 1))

/-- `get_decl_index(t)`: return `-(1 + (int)(intptr_t)llvm_get_cached(t))`,
mapping -1 .. INT_MIN back to 0 .. INT_MAX and the null cell to -1
(source lines 157-164).  The `(int)` cast is a 32-bit truncation. -/
def get_decl_index (cache : Nat → Int) (t : Nat) : Int :=
  -(1 + truncSigned 32 (llvm_get_cached cache t))

/-! ### Linkage and visibility -/

/-- `GlobalValue::LinkageTypes`. -/
inductive Linkage
| externalL
| availableExternallyL
| linkOnceAnyL
| linkOnceODRL
| weakAnyL
| weakODRL
| appendingL
| internalL
| privateL
| linkerPrivateL
| externalWeakL
| commonL
deriving DecidableEq, Repr

/-- `GlobalValue::getWeakLinkage(ODR)`. -/
def getWeakLinkage (odr : Bool) : Linkage :=
  if odr then .weakODRL else .weakAnyL

/-- `GlobalValue::getLinkOnceLinkage(ODR)`. -/
def getLinkOnceLinkage (odr : Bool) : Linkage :=
  if odr then .linkOnceODRL else .linkOnceAnyL

/-- `GlobalValue::VisibilityTypes`. -/
inductive Visibility
| defaultVis
| hiddenVis
| protectedVis
deriving DecidableEq, Repr

/-! ### Front-end declarations -/

/-- The `TREE_CODE`s inspected by the backend source. -/
inductive TreeCode
| varDeclC
| functionDeclC
| constDeclC
| parmDeclC
| resultDeclC
| typeDeclC
| labelDeclC
deriving DecidableEq, Repr

/-- Front-end initializer expressions, as consumed by the (external)
initializer conversion service.  `addrOfDecl d castTo` is the address of
declaration `d` converted to type `castTo` (e.g. the `&G` in
`void *G = &G;`, whose converted constant has the declared type of `G`). -/
inductive InitExpr
| intLit (n : Int) (ty : Ty)
| addrOfDecl (declId : Nat) (castTo : Ty)
deriving DecidableEq, Repr

/-- `DECL_INITIAL`: absent (0), `error_mark_node`, or a real initializer. -/
inductive DeclInitial
| noInit
| errorMark
| initOf (e : InitExpr)
deriving DecidableEq, Repr

/-- A GCC declaration tree node, restricted to the attributes Backend.cpp
reads.  `regNumber` is the result of
`decode_reg_name(extractRegisterName(decl))` (the register-name decoding is
front-end code outside this source file). -/
structure Decl where
  code : TreeCode
  declTy : Ty
  hasTypeSize : Bool
  isPublic : Bool
  isStatic : Bool
  isExternal : Bool
  isRegister : Bool
  isWeak : Bool
  isCommon : Bool
  isOneOnly : Bool
  isComdat : Bool
  isThreadLocal : Bool
  isReadonly : Bool
  hasSideEffects : Bool
  declInit : DeclInitial
  assemblerName : String
  declSection : Option String
  declAlign : Nat
  userAlign : Bool
  preserve : Bool
  visSpecified : Bool
  visibility : Visibility
  hasWeakrefAttr : Bool
  regNumber : Int
  isBLKmode : Bool
  isAggregateTy : Bool
  isVolatile : Bool
deriving Repr

/-- Symbol kinds in the output module: `GlobalVariable`, `Function`,
`GlobalAlias`. -/
inductive SymKind
| gvarK
| funcK
| aliasK
deriving DecidableEq, Repr

/-- Offsets and flags of a GCC thunk (`node->thunk`). -/
structure ThunkInfo where
  thisAdjusting : Bool
  fixedOffset : Int
  virtualOffsetP : Bool
  virtualValue : Int
  aliasDecl : Nat
deriving DecidableEq, Repr

/-- A backend global value (`GlobalVariable` / `Function` / `GlobalAlias`).
`initVal = none` models `isDeclaration()`.  `elemTy` is
`getType()->getElementType()`; the value's own type is `Ty.ptrTo elemTy`. -/
structure Symbol where
  sid : Nat
  name : String
  kind : SymKind
  elemTy : Ty
  linkage : Linkage
  visibility : Visibility
  isConstant : Bool
  threadLocal : Bool
  initVal : Option Const
  symSection : Option String
  align : Nat
  aliaseeSid : Option Nat
  thunkDescr : Option ThunkInfo
deriving DecidableEq, Repr

/-- The `Constant*` by which the module refers to a symbol. -/
def Symbol.refC (g : Symbol) : Const :=
  Const.globalRef g.sid (Ty.ptrTo g.elemTy)

/-- Target of an alias declaration: either an `IDENTIFIER_NODE` (with the
`TREE_CHAIN` of transparent-alias hops it may carry) or a declaration. -/
inductive AliasTarget
| identNode (name : String) (chain : List String)
| declNode (declId : Nat)
deriving Repr

/-- The compilation-unit state: the front end's declaration store, the output
module, the declaration identity cache (`llvm_set_cached` storage for
declarations with RTL), the pending constructor/destructor lists and root
sets, GCC's diagnostic counters (`errorcount` and the counter behind
`sorry()`, written `unimplCount` here), and the services consumed from the
target description and symbol-table lookups. -/
structure CompState where
  decls : Nat → Decl
  symbols : List Symbol
  nextId : Nat
  cache : Nat → Option Const
  staticCtors : List (Const × Int)
  staticDtors : List (Const × Int)
  attributeUsedGlobals : List Const
  attributeCompilerUsedGlobals : List Const
  errorcount : Nat
  unimplCount : Nat
  diagnostics : List String
  asmWritten : Nat → Bool
  flagOdr : Bool
  abiAlign : Ty → Nat
  cgraphForAsm : String → Option Nat
  varpoolForAsm : String → Option Nat
  staticVariables : List Nat
  aliasPairs : List (Nat × AliasTarget)

/-- GCC `error(...)`: report a diagnostic and bump `errorcount`. -/
def reportError (s : CompState) (msg : String) : CompState :=
  { s with errorcount := s.errorcount + 1, diagnostics := s.diagnostics ++ [msg] }

/-- GCC `sorry(...)`: report a not-implemented diagnostic and bump the
corresponding counter. -/
def reportUnimpl (s : CompState) (msg : String) : CompState :=
  { s with unimplCount := s.unimplCount + 1, diagnostics := s.diagnostics ++ [msg] }

/-- GCC `warning(0, ...)`: report a diagnostic without bumping any counter. -/
def reportWarning (s : CompState) (msg : String) : CompState :=
  { s with diagnostics := s.diagnostics ++ [msg] }

/-- Whether broken code was seen (`errorcount || sorrycount`). -/
def hasErrors (s : CompState) : Prop :=
  s.errorcount ≠ 0 ∨ s.unimplCount ≠ 0

instance (s : CompState) : Decidable (hasErrors s) := by
  unfold hasErrors; infer_instance

/-- Store a value in the identity cache (`SET_DECL_LLVM` / `set_decl_llvm`). -/
def setCache (s : CompState) (t : Nat) (v : Const) : CompState :=
  { s with cache := fun t2 => if t2 = t then some v else s.cache t2 }

/-- Mutate the declaration store (GCC trees are shared mutable state). -/
def updateDecl (s : CompState) (t : Nat) (f : Decl → Decl) : CompState :=
  { s with decls := fun t2 => if t2 = t then f (s.decls t2) else s.decls t2 }

/-- `TREE_ASM_WRITTEN(decl) = 1`. -/
def markAsmWritten (s : CompState) (t : Nat) : CompState :=
  { s with asmWritten := fun t2 => if t2 = t then true else s.asmWritten t2 }

/-- Look up a module symbol by id. -/
def findSymbol (s : CompState) (sid : Nat) : Option Symbol :=
  s.symbols.find? (fun g => g.sid = sid)

/-- Rewrite a module symbol in place (`setLinkage`, `setInitializer`, ...). -/
def updateSymbol (s : CompState) (sid : Nat) (f : Symbol → Symbol) : CompState :=
  { s with symbols := s.symbols.map (fun g => if g.sid = sid then f g else g) }

/-- `Module::getFunction(Name)` (unnamed values are not in the table). -/
def getFunction (s : CompState) (n : String) : Option Symbol :=
  if n = "" then none
  else s.symbols.find? (fun g => g.kind = .funcK ∧ g.name = n)

/-- `Module::getGlobalVariable(Name, true)`. -/
def getGlobalVariable (s : CompState) (n : String) : Option Symbol :=
  if n = "" then none
  else s.symbols.find? (fun g => g.kind = .gvarK ∧ g.name = n)

/-- Whether any module symbol holds this (nonempty) name. -/
def moduleHasName (s : CompState) (n : String) : Bool :=
  s.symbols.any (fun g => g.name = n ∧ n ≠ "")

/-- The module's value symbol table renames a newcomer whose requested name is
taken (a numeric suffix in LLVM; here the fresh id keeps it unique). -/
def freshName (s : CompState) (n : String) : String :=
  if moduleHasName s n then n ++ "." ++ toString s.nextId else n

/-- Construct and append a new global value
(`new GlobalVariable(...)` / `Function::Create(...)`). -/
def addSymbol (s : CompState) (kind : SymKind) (elemTy : Ty) (isConstant : Bool)
    (linkage : Linkage) (initVal : Option Const) (name : String) :
    Symbol × CompState :=
  let g : Symbol :=
    { sid := s.nextId, name := freshName s name, kind := kind, elemTy := elemTy,
      linkage := linkage, visibility := .defaultVis, isConstant := isConstant,
      threadLocal := false, initVal := initVal, symSection := none, align := 0,
      aliaseeSid := none, thunkDescr := none }
  (g, { s with symbols := s.symbols ++ [g], nextId := s.nextId + 1 })

/-- `SmallSetVector::insert`: append if not already present. -/
def setVectorInsert (l : List Const) (c : Const) : List Const :=
  if c ∈ l then l else l ++ [c]

/-- `SmallSetVector::remove`. -/
def setVectorRemove (l : List Const) (c : Const) : List Const :=
  l.filter (fun x => x ≠ c)

/-- `Old->replaceAllUsesWith(rep)` where `Old` is the global with id
`oldSid`: every use edge in the module — i.e. every occurrence inside a
global initializer — is redirected to `rep`.  Raw `Constant*` copies held in
side tables (root sets, ctor/dtor lists, the identity cache) are not uses
and are left to `changeLLVMConstant`. -/
def replaceAllUsesWith (s : CompState) (oldSid : Nat) (rep : Const) : CompState :=
  { s with symbols :=
      s.symbols.map (fun g =>
        { g with initVal := g.initVal.map (Const.replaceRef oldSid rep) }) }

/-- Modelled from the spec: `llvm_replace_cached(Old, New)` is declared and
called in Backend.cpp but defined in the repository's cache implementation,
which is not part of this source file.  Per spec §4.1 the rebind operation
"must additionally patch every other data structure holding a reference to
old", so every cached value's references to the old symbol are redirected to
the new constant. -/
def llvmReplaceCached (cache : Nat → Option Const) (oldC newC : Const) :
    Nat → Option Const :=
  match oldC.constSid with
  | some g => fun t => (cache t).map (Const.replaceRef g newC)
  | none => cache

/-- `changeLLVMConstant(Old, New)` (Backend.cpp lines 169-193): replace `Old`
with `New` in the used/compiler-used root sets, patch the first components of
the pending static constructor and destructor lists, and rebind the identity
cache.  (`AttributeAnnotateGlobals` is explicitly excluded by the source.) -/
def changeLLVMConstant (s : CompState) (oldC newC : Const) : CompState :=
  let used :=
    if oldC ∈ s.attributeUsedGlobals then
      setVectorInsert (setVectorRemove s.attributeUsedGlobals oldC) newC
    else s.attributeUsedGlobals
  let cused :=
    if oldC ∈ s.attributeCompilerUsedGlobals then
      setVectorInsert (setVectorRemove s.attributeCompilerUsedGlobals oldC) newC
    else s.attributeCompilerUsedGlobals
  { s with
    attributeUsedGlobals := used,
    attributeCompilerUsedGlobals := cused,
    staticCtors := s.staticCtors.map (fun p => if p.1 = oldC then (newC, p.2) else p),
    staticDtors := s.staticDtors.map (fun p => if p.1 = oldC then (newC, p.2) else p),
    cache := llvmReplaceCached s.cache oldC newC }

/-- `register_ctor_dtor(Fn, InitPrio, isCtor)` (Backend.cpp lines 1448-1450). -/
def register_ctor_dtor (s : CompState) (fn : Const) (initPrio : Int)
    (isCtor : Bool) : CompState :=
  if isCtor then { s with staticCtors := s.staticCtors ++ [(fn, initPrio)] }
  else { s with staticDtors := s.staticDtors ++ [(fn, initPrio)] }

/-! ### Visibility and linkage classification -/

/-- `handleVisibility(decl, GV)` (Backend.cpp lines 254-268): honour the
declaration's visibility only when it was explicitly specified or the
declaration is not an external reference. -/
def handleVisibility (d : Decl) (g : Symbol) : Symbol :=
  if d.isPublic ∧ (d.visSpecified ∨ ¬ d.isExternal) then
    match d.visibility with
    | .hiddenVis => { g with visibility := .hiddenVis }
    | .protectedVis => { g with visibility := .protectedVis }
    | .defaultVis => { g with visibility := .defaultVis }
  else g

/-- The first branch of the linkage selection in `emit_global`
(line 1053): `CODE_CONTAINS_STRUCT(..., TS_DECL_WITH_VIS) && false` — the
`DECL_LLVM_PRIVATE` test is disabled in the source (`&& false`), so the
branch never fires. -/
def declLLVMPrivateTest (_d : Decl) : Bool := false

/-- The second branch (line 1056): the `DECL_LLVM_LINKER_PRIVATE` test,
likewise disabled with `&& false` in the source. -/
def declLLVMLinkerPrivateTest (_d : Decl) : Bool := false

/-- The second pass of the linkage selection in `emit_global`
(lines 1076-1086): for a symbol marked constant, weak linkage is upgraded to
its ODR variant so that loads from it may be folded. -/
def constantLinkageUpgrade (l : Linkage) : Linkage :=
  match l with
  | .weakAnyL => .weakODRL
  | .linkOnceAnyL => .linkOnceODRL
  | _ => l

/-- The linkage classification of `emit_global` (Backend.cpp lines
1050-1086), as a pure function of the declaration attributes, the global ODR
flag, and the symbol's current linkage and constant marker.  The final
`else` keeps `GV->getLinkage()`. -/
def emitGlobalLinkage (d : Decl) (flagOdr : Bool) (gvLinkage : Linkage)
    (gvIsConstant : Bool) : Linkage :=
  let l :=
    if declLLVMPrivateTest d then Linkage.privateL
    else if declLLVMLinkerPrivateTest d then Linkage.linkerPrivateL
    else if ¬ d.isPublic then Linkage.internalL
    else if d.isWeak then Linkage.weakAnyL
    else if d.isOneOnly then getWeakLinkage flagOdr
    else if d.isCommon ∧ (d.declInit = .noInit ∨ d.declInit = .errorMark) then
      Linkage.commonL
    else if d.isComdat then getLinkOnceLinkage flagOdr
    else gvLinkage
  if gvIsConstant then constantLinkageUpgrade l else l

/-- `GetLinkageForAlias(decl)` (Backend.cpp lines 1638-1660); `flagOdr` is
the global `flag_odr`. -/
def GetLinkageForAlias (flagOdr : Bool) (d : Decl) : Linkage :=
  if d.isComdat then .internalL
  else if d.isOneOnly then getWeakLinkage flagOdr
  else if d.isWeak then .weakAnyL
  else if ¬ d.isPublic then .internalL
  else if d.isExternal then .internalL
  else .externalL

/-! ### ValidateRegisterVariable -/

/-- `ValidateRegisterVariable(decl)` (Backend.cpp lines 1168-1199): check a
static "asm" register variable, reporting diagnostics and returning `true`
when it is malformed.  (`decode_reg_name` already happened: its result is the
declaration's `regNumber` field.  The `HARD_REGNO_MODE_OK` test is disabled
with `#if 0` in the source.) -/
def ValidateRegisterVariable (s : CompState) (d : Decl) : Bool × CompState :=
  if hasErrors s then (true, s)
  else if d.regNumber = -1 then
    (true, reportError s "register name not specified for decl")
  else if d.regNumber < 0 then
    (true, reportError s "invalid register name for decl")
  else if d.isBLKmode then
    (true, reportError s "data type of decl is not suitable for a register")
  else if d.declInit ≠ .noInit ∧ d.isStatic then
    (true, reportError s "global register variable has initial value")
  else if d.isAggregateTy then
    (true, reportUnimpl s "LLVM cannot handle register variable, report a bug")
  else
    (false,
     if d.isVolatile then
       reportWarning s "volatile register variables do not work as you might wish"
     else s)

/-! ### Symbol materialization (`make_decl_llvm`) -/

/-- Modelled from the spec: the type conversion service
(`TheTypeConverter` / `ConvertType` / `ConvertFunctionType`) lives in the
repository's type-conversion implementation, outside this source file.  Per
spec §6 it is a deterministic function from front-end types to backend
types; this embedding identifies the two type universes, so the service is
the identity. -/
def ConvertType (t : Ty) : Ty := t

/-- The forward-declaration name-collision repair of `make_decl_llvm`
(Backend.cpp lines 1301-1317 for a function displacing a variable
declaration, and the symmetric lines 1366-1382 for a variable displacing a
function declaration): redirect every use of the old symbol to a bitcast of
the new one, run `changeLLVMConstant`, give the new symbol the old one's
name (`takeName`), and erase the old symbol from the module. -/
def resolveNameCollision (s : CompState) (newSid oldSid : Nat) : CompState :=
  match findSymbol s newSid, findSymbol s oldSid with
  | some newG, some oldG =>
    let castC := createBitCast newG.refC (Ty.ptrTo oldG.elemTy)
    let s1 := replaceAllUsesWith s oldSid castC
    let s2 := changeLLVMConstant s1 oldG.refC castC
    let s3 := updateSymbol s2 newSid (fun g => { g with name := oldG.name })
    { s3 with symbols := s3.symbols.filter (fun g => g.sid ≠ oldSid) }
  | _, _ => s

/-- The function branch of `make_decl_llvm` (Backend.cpp lines 1273-1319):
reuse an existing function of the same name, otherwise create it, apply
external-weak linkage and visibility, and repair a name collision with a
forward-declared variable.  Ends in `SET_DECL_LLVM(decl, FnEntry)`. -/
def make_decl_llvm_function (s2 : CompState) (t : Nat) (d : Decl)
    (name : String) : Option Const × CompState :=
  match getFunction s2 name with
  | some fnEntry =>
    -- Reuse an already created function of the same name.
    (some fnEntry.refC, setCache s2 t fnEntry.refC)
  | none =>
    let fnTy := ConvertType d.declTy
    let (fnEntry, s3) := addSymbol s2 .funcK fnTy false .externalL none name
    -- Check for external weak linkage.
    let s4 :=
      if d.isExternal ∧ d.isWeak then
        updateSymbol s3 fnEntry.sid
          (fun g => { g with linkage := .externalWeakL })
      else s3
    let s5 := updateSymbol s4 fnEntry.sid (handleVisibility d)
    -- If FnEntry got renamed, the name was held by a forward-declared
    -- variable: replace it with a cast of the new function.
    let s6 :=
      if fnEntry.name ≠ name then
        match getGlobalVariable s5 name with
        | some oldG => resolveNameCollision s5 fnEntry.sid oldG.sid
        | none => s5
      else s5
    (some fnEntry.refC, setCache s6 t fnEntry.refC)

/-- The symbol-obtaining part of the variable branch of `make_decl_llvm`
(Backend.cpp lines 1323-1387): an anonymous declaration always gets a fresh
global; a named one reuses the existing global of that name or creates one,
repairing a name collision with a forward-declared function. -/
def make_decl_llvm_variable_symbol (s2 : CompState) (d : Decl)
    (name : String) : Nat × CompState :=
  let ty0 := ConvertType d.declTy
  -- "extern void foo" gets type {} instead of type void.
  let ty := if ty0 = Ty.voidTy then Ty.structEmpty else ty0
  if name = "" then
    -- Anonymous global: always fresh.
    let (gv, s3) := addSymbol s2 .gvarK ty false .externalL none ""
    let s4 :=
      if d.isExternal ∧ d.isWeak then
        updateSymbol s3 gv.sid (fun g => { g with linkage := .externalWeakL })
      else s3
    (gv.sid, updateSymbol s4 gv.sid (handleVisibility d))
  else
    match getGlobalVariable s2 name with
    | some gve =>
      -- Global already created, reuse it.
      (gve.sid, s2)
    | none =>
      let (gv, s3) := addSymbol s2 .gvarK ty false .externalL none name
      let s4 :=
        if d.isExternal ∧ d.isWeak then
          updateSymbol s3 gv.sid (fun g => { g with linkage := .externalWeakL })
        else s3
      let s5 := updateSymbol s4 gv.sid (handleVisibility d)
      -- If GV got renamed, the name was held by a forward-declared
      -- function: replace it with a cast of the new variable.
      let s6 :=
        if gv.name ≠ name then
          match getFunction s5 name with
          | some oldF => resolveNameCollision s5 gv.sid oldF.sid
          | none => s5
        else s5
      (gv.sid, s6)

/-- The variable branch of `make_decl_llvm` (Backend.cpp lines 1320-1419):
obtain the symbol, apply the readonly classification and thread-locality,
and end in `SET_DECL_LLVM(decl, GV)`.  (In this embedding every `InitExpr`
is a front-end constant, so the source's `TREE_CONSTANT(DECL_INITIAL) ||
STRING_CST` test holds exactly when a real initializer is present.) -/
def make_decl_llvm_variable (s2 : CompState) (t : Nat) (d : Decl)
    (name : String) : Option Const × CompState :=
  let core := make_decl_llvm_variable_symbol s2 d name
  let gvSid := core.1
  let s6 := core.2
  -- Readonly classification.
  let s7 :=
    if (d.isReadonly ∧ ¬ d.hasSideEffects) ∨ d.code = .constDeclC then
      if d.isExternal then
        -- External globals may be marked constant: the definition site
        -- decides, and the marking only enables optimizations.
        updateSymbol s6 gvSid (fun g => { g with isConstant := true })
      else
        match d.declInit with
        | .initOf _ =>
          updateSymbol s6 gvSid (fun g => { g with isConstant := true })
        | _ => s6
    else s6
  -- Set thread local (TLS).
  let s8 :=
    if d.code = .varDeclC ∧ d.isThreadLocal then
      updateSymbol s7 gvSid (fun g => { g with threadLocal := true })
    else s7
  match findSymbol s8 gvSid with
  | some gv2 => (some gv2.refC, setCache s8 t gv2.refC)
  | none => (none, s8)

/-- The uncached tail of `make_decl_llvm`: dispatch on the declaration's
tree code to the function or variable branch. -/
def make_decl_llvm_uncached (s2 : CompState) (t : Nat) (name : String) :
    Option Const × CompState :=
  let d := s2.decls t
  if d.code = .functionDeclC then make_decl_llvm_function s2 t d name
  else make_decl_llvm_variable s2 t d name

/-- `make_decl_llvm(decl)` (Backend.cpp lines 1211-1421): create or reuse
the LLVM global for a static-storage declaration, caching the result.
Not modelled: the `ENABLE_CHECKING` aborts for automatic declarations (debug
assertions), the `REGISTER_PREFIX` diagnostic block (compiled only for
targets defining a register prefix), the `TARGET_ADJUST_LLVM_LINKAGE` hooks
(target-conditional), and the calling convention / parameter attributes
returned by the external signature-conversion service. -/
def make_decl_llvm (s0 : CompState) (t : Nat) : Option Const × CompState :=
  -- If we already made the LLVM, then return it.
  match s0.cache t with
  | some v => (some v, s0)
  | none =>
    if hasErrors s0 then (none, s0)  -- Do not process broken code.
    else
      let d0 := s0.decls t
      -- A global register variable is only validated, never materialized.
      if d0.code ≠ .functionDeclC ∧ d0.isRegister then
        (none, (ValidateRegisterVariable s0 d0).2)
      else
        -- CONST_DECLs do not have assembler names.
        let name := if d0.code = .constDeclC then "" else d0.assemblerName
        -- A section attribute forces a variable out of .bss: not common.
        let s1 :=
          if d0.code = .varDeclC ∧ d0.declSection ≠ none ∧
             d0.declInit = .noInit ∧ d0.isCommon then
            updateDecl s0 t (fun d => { d with isCommon := false })
          else s0
        -- Variables cannot be both common and weak.
        let s2 :=
          if d0.code = .varDeclC ∧ d0.isWeak then
            updateDecl s1 t (fun d => { d with isCommon := false })
          else s1
        make_decl_llvm_uncached s2 t name

/-- The `DECL_LLVM` macro: the cached LLVM value, implicitly calling
`make_decl_llvm` when none is set (see the source comment at line 1209).
`none` models the `cast<>` of a null value — an assertion failure that never
happens in the verified runs. -/
def declLLVM (s : CompState) (t : Nat) : Option (Const × CompState) :=
  match make_decl_llvm s t with
  | (some v, s1) => some (v, s1)
  | (none, _) => none

/-! ### Global emission (`emit_global`) -/

/-- Modelled from the spec: `getDefaultValue(Ty)` lives in the conversion
implementation outside this source file; per spec §4.4, with no explicit
initial value the symbol gets "a zero/default value of the (re-resolved)
type". -/
def getDefaultValue (t : Ty) : Const := Const.zeroinit t

/-- The forward-declaration repair protocol of `emit_global` (Backend.cpp
lines 1030-1041), run when the symbol's element type disagrees with the
converted initializer's type: remove the old global from the module, create
a new one of the initializer's type with the old name, redirect every use of
the old global to a bitcast of the new one, run `changeLLVMConstant`, delete
the old global, and rebind the declaration to the new one. -/
def repairGlobalForInit (s : CompState) (t : Nat) (gid : Nat) (gv : Symbol)
    (initC : Const) : Nat × CompState :=
  -- GV->removeFromParent();
  let sA := { s with symbols := s.symbols.filter (fun g => g.sid ≠ gid) }
  -- new GlobalVariable(Init->getType(), GV->isConstant(), ExternalLinkage,
  --                    0, GV->getName());
  let ngv := (addSymbol sA .gvarK initC.typeOf gv.isConstant .externalL none gv.name).1
  let sB := (addSymbol sA .gvarK initC.typeOf gv.isConstant .externalL none gv.name).2
  -- GV->replaceAllUsesWith(TheFolder->CreateBitCast(NGV, GV->getType()));
  let castC := createBitCast ngv.refC (Ty.ptrTo gv.elemTy)
  let sC := replaceAllUsesWith sB gid castC
  -- changeLLVMConstant(GV, NGV);  delete GV;
  let sD := changeLLVMConstant sC gv.refC ngv.refC
  -- SET_DECL_LLVM(decl, NGV);
  (ngv.sid, setCache sD t ngv.refC)

/-- `make_definition_llvm(decl)` (Backend.cpp lines 1425-1443): ensure the
initial value of a global will be output and return a declaration for it.
The parameter `eg` is the `emit_global` to invoke for a global variable that
is still a declaration; the caller instantiates it with an `emit_global`
carrying less fuel. -/
def make_definition_llvmF (eg : CompState → Nat → Option CompState)
    (s : CompState) (t : Nat) : Option (Const × CompState) :=
  let d := s.decls t
  -- Only need to do something special for global variables.
  if d.code ≠ .constDeclC ∧ d.code ≠ .varDeclC then declLLVM s t
  -- Do not allocate storage for external references (eg: a weakref alias).
  else if d.isExternal then declLLVM s t
  -- Only globals in static storage take initial values.
  else if ¬ d.isStatic then declLLVM s t
  else
    (declLLVM s t).bind (fun p =>
    p.1.constSid.bind (fun gid =>
    (findSymbol p.2 gid).bind (fun gv =>
    -- If we already output a definition for this declaration, reuse it.
    if gv.initVal ≠ none then some (p.1, p.2)
    else
      (eg p.2 t).bind (fun s2 =>
      -- Decl could have changed if it changed type: re-read DECL_LLVM.
      declLLVM s2 t))))

/-- Modelled from the spec: the initializer conversion service
(`ConvertInitializer`, defined in the repository's constant-conversion
implementation outside this source file).  Per spec §6 it converts a
front-end initial value to a backend constant and "may itself call back into
this engine's Materializer for references to other declarations (hence the
self-reference guard)": taking the address of a declaration goes through
`make_definition_llvm`, and the produced constant is cast to the
expression's declared type. -/
def convertInitializerF (eg : CompState → Nat → Option CompState)
    (s : CompState) : InitExpr → Option (Const × CompState)
| .intLit n ty => some (.intC n ty, s)
| .addrOfDecl dId castTo =>
  (make_definition_llvmF eg s dId).map (fun p => (createBitCast p.1 castTo, p.2))

/-- The tail of `emit_global` after the initializer constant is known and
the symbol possibly retyped (Backend.cpp lines 1043-1161): set the
initializer, thread-locality, linkage (with the constant upgrade),
visibility, section, alignment and used-roots, and mark the declaration
written.  (The `DECL_LLVM_LINKER_PRIVATE` test guarding the compiler-used
set is disabled with `if (false)` in the source, so preserved declarations
always go to the "used" root set.) -/
def emit_global_finish (s4 : CompState) (t gid2 : Nat) (d : Decl)
    (gv3 : Symbol) (initC : Const) : CompState :=
  -- Set the initializer.
  let s5 := updateSymbol s4 gid2 (fun g => { g with initVal := some initC })
  -- Set thread local (TLS).
  let s6 :=
    if d.code = TreeCode.varDeclC ∧ d.isThreadLocal then
      updateSymbol s5 gid2 (fun g => { g with threadLocal := true })
    else s5
  -- Set the linkage (with the constant weak/link-once upgrade).
  let lk := emitGlobalLinkage d s6.flagOdr gv3.linkage gv3.isConstant
  let s7 := updateSymbol s6 gid2 (fun g => { g with linkage := lk })
  let s8 := updateSymbol s7 gid2 (handleVisibility d)
  -- Section, alignment and used-roots handling for variables.
  let s9 :=
    if d.code = TreeCode.varDeclC then
      let sA :=
        match d.declSection with
        | some sec =>
          updateSymbol s8 gid2 (fun g => { g with symSection := some sec })
        | none => s8
      let sB :=
        if d.declAlign ≠ 0 ∧
           (d.userAlign ∨ 8 * s4.abiAlign gv3.elemTy < d.declAlign) then
          updateSymbol sA gid2 (fun g => { g with align := d.declAlign / 8 })
        else sA
      if d.preserve then
        { sB with attributeUsedGlobals :=
            setVectorInsert sB.attributeUsedGlobals gv3.refC }
      else sB
    else s8
  -- Mark the global as written so gcc does not output it again.
  markAsmWritten s9 t

/-- `emit_global(decl)` (Backend.cpp lines 988-1162): emit a `VAR_DECL` or
aggregate `CONST_DECL` as a global variable.  The fuel bounds re-entry
through the initializer conversion service (`none` = fuel exhausted or an
assertion failure).  Not modelled: the target-conditional section/alignment
hooks (`LLVM_IMPLICIT_TARGET_GLOBAL_VAR_SECTION`,
`TARGET_ADJUST_CSTRING_ALIGN`, `TARGET_ADJUST_LLVM_LINKAGE`), debug info,
and the annotation records (which `changeLLVMConstant` excludes). -/
def emit_global : Nat → CompState → Nat → Option CompState
| 0, _, _ => none
| fuel+1, s, t =>
  let d0 := s.decls t
  -- Global register variables do not turn into LLVM GlobalVariables.
  if d0.code = .varDeclC ∧ d0.isRegister then some s
  -- A forward declaration is not emitted yet.
  else if ¬ d0.hasTypeSize then some s
  else
    (declLLVM s t).bind (fun p =>
    p.1.constSid.bind (fun gid =>
    (findSymbol p.2 gid).bind (fun gv =>
    -- cast<GlobalVariable>: the cached value must be a global variable.
    if gv.kind ≠ .gvarK then none
    else
      let d := p.2.decls t
      -- Convert the initializer over.
      (match d.declInit with
       | .noInit =>
         -- Reconvert the type: forward and real def may disagree.
         some (getDefaultValue (ConvertType d.declTy), p.2)
       | .errorMark =>
         some (getDefaultValue (ConvertType d.declTy), p.2)
       | .initOf e =>
         -- Temporarily set an initializer for the global so we do not
         -- infinitely recurse: the initializer might refer to the global
         -- itself, as in `void *G = &G;`.
         let s2 := updateSymbol p.2 gid
           (fun g => { g with initVal := some (Const.undef g.elemTy) })
         convertInitializerF (fun sx tx => emit_global fuel sx tx) s2 e
      ).bind (fun q =>
      (findSymbol q.2 gid).bind (fun gv2 =>
      -- A forward definition whose type disagrees with the initializer is
      -- repaired by the retyping protocol.
      let r :=
        if gv2.elemTy ≠ q.1.typeOf then repairGlobalForInit q.2 t gid gv2 q.1
        else (gid, q.2)
      (findSymbol r.2 r.1).bind (fun gv3 =>
      some (emit_global_finish r.2 t r.1 d gv3 q.1)))))))

/-- `ConvertInitializer` at a given fuel. -/
def convertInitializer (fuel : Nat) (s : CompState) (e : InitExpr) :
    Option (Const × CompState) :=
  convertInitializerF (fun sx tx => emit_global fuel sx tx) s e

/-- `make_definition_llvm` at a given fuel (the `DEFINITION_LLVM` macro). -/
def make_definition_llvm (fuel : Nat) (s : CompState) (t : Nat) :
    Option (Const × CompState) :=
  make_definition_llvmF (fun sx tx => emit_global fuel sx tx) s t

/-! ### Alias emission (`emit_alias`) -/

/-- The `while (IDENTIFIER_TRANSPARENT_ALIAS(target)) target =
TREE_CHAIN(target);` loop of `emit_alias`: follow the transparent-alias hops
attached to an identifier to their terminus. -/
def followTransparent : String → List String → String
| n, [] => n
| _, c :: cs => followTransparent c cs

/-- The tail of `emit_alias` once the aliasee is known (Backend.cpp lines
1849-1871): compute the alias linkage; for non-internal linkage create a
`GlobalAlias`, redirect every use of the placeholder to it and give it the
placeholder's name; for internal linkage redirect every use of the
placeholder directly to the aliasee.  The placeholder is erased either
way. -/
def emitAliasTail (s : CompState) (t : Nat) (d : Decl) (vid : Nat)
    (vSym : Symbol) (aliaseeSid : Nat) : Option CompState :=
  (findSymbol s aliaseeSid).bind (fun aliasee =>
  let lk := GetLinkageForAlias s.flagOdr d
  let s' :=
    if lk ≠ Linkage.internalL then
      -- new GlobalAlias(Aliasee->getType(), Linkage, "", Aliasee, TheModule)
      let ga0 := (addSymbol s .aliasK aliasee.elemTy false lk none "").1
      let sA := (addSymbol s .aliasK aliasee.elemTy false lk none "").2
      let sB := updateSymbol sA ga0.sid
        (fun g => handleVisibility d { g with aliaseeSid := some aliaseeSid })
      -- V->replaceAllUsesWith(ConstantExpr::getBitCast(GA, V->getType()));
      let castC := createBitCast ga0.refC (Ty.ptrTo vSym.elemTy)
      let sC := replaceAllUsesWith sB vid castC
      -- changeLLVMConstant(V, GA);  GA->takeName(V);
      let sD := changeLLVMConstant sC vSym.refC ga0.refC
      updateSymbol sD ga0.sid (fun g => { g with name := vSym.name })
    else
      -- Make all users of the alias directly use the aliasee instead.
      let castC := createBitCast aliasee.refC (Ty.ptrTo vSym.elemTy)
      let sC := replaceAllUsesWith s vid castC
      changeLLVMConstant sC vSym.refC aliasee.refC
  -- V->eraseFromParent();
  let s'' := { s' with symbols := s'.symbols.filter (fun g => g.sid ≠ vid) }
  some (markAsmWritten s'' t))

/-- `emit_alias(decl, target)` (Backend.cpp lines 1805-1871). -/
def emit_alias (fuel : Nat) (s : CompState) (t : Nat) (target0 : AliasTarget) :
    Option CompState :=
  if hasErrors s then some s  -- Do not process broken code.
  else
    (declLLVM s t).bind (fun p =>
    p.1.constSid.bind (fun vid =>
    (findSymbol p.2 vid).bind (fun vSym =>
    let s1 := p.2
    let d := s1.decls t
    let weakref := d.hasWeakrefAttr
    -- For a weakref, follow transparent alias chains to the terminus.
    let target1 :=
      match target0 with
      | .identNode nm chain =>
        if weakref then AliasTarget.identNode (followTransparent nm chain) []
        else AliasTarget.identNode nm chain
      | tg => tg
    -- Resolve an identifier through the cgraph, then the varpool.
    let target2 :=
      match target1 with
      | .identNode nm _ =>
        match s1.cgraphForAsm nm with
        | some fd => AliasTarget.declNode fd
        | none =>
          match s1.varpoolForAsm nm with
          | some vd => AliasTarget.declNode vd
          | none => AliasTarget.identNode nm []
      | tg => tg
    match target2 with
    | .identNode nm _ =>
      if ¬ weakref then
        -- Alias to a symbol never defined in this unit: user error.
        some (reportError s1 "decl aliased to undefined symbol")
      else
        -- weakref to an external symbol: synthesize an external-weak target.
        -- (For a variable the source passes GV->getType() — the POINTER
        -- type — as the new global's element type.)
        match vSym.kind with
        | .gvarK =>
          emitAliasTail
            (addSymbol s1 .gvarK (Ty.ptrTo vSym.elemTy)
              vSym.isConstant .externalWeakL none nm).2
            t d vid vSym
            (addSymbol s1 .gvarK (Ty.ptrTo vSym.elemTy)
              vSym.isConstant .externalWeakL none nm).1.sid
        | .funcK =>
          emitAliasTail
            (addSymbol s1 .funcK vSym.elemTy false .externalWeakL none nm).2
            t d vid vSym
            (addSymbol s1 .funcK vSym.elemTy false .externalWeakL none nm).1.sid
        | .aliasK => none  -- assert(0 && "Unsuported global value")
    | .declNode td =>
      (make_definition_llvm fuel s1 td).bind (fun q =>
      q.1.constSid.bind (fun asid =>
      emitAliasTail q.2 t d vid vSym asid)))))

/-! ### Thunk lowering (`emit_thunk`) -/

/-- `ApplyVirtualOffset(This, virtual_value, Builder)` (Backend.cpp lines
1663-1690), as the arithmetic the emitted instructions perform on an object
address.  Pointers are byte addresses (`Int`); bitcasts do not change the
address; `mem` is the contents of memory, so the emitted
`load (load This + virtual_value)` is `mem (mem this + virtualValue)`, and
the final inbounds GEP adds that displacement to the pointer. -/
def ApplyVirtualOffset (mem : Int → Int) (virtualValue : Int) (this : Int) : Int :=
  this + mem (mem this + virtualValue)

/-- The adjustment `emit_thunk` applies to the located "this" argument
(Backend.cpp lines 1740-1751): first the fixed offset (an i8 GEP, emitted
only when the offset is nonzero), then the virtual offset when present. -/
def adjustThis (tk : ThunkInfo) (mem : Int → Int) (v : Int) : Int :=
  let v1 := if tk.fixedOffset ≠ 0 then v + tk.fixedOffset else v
  if tk.virtualOffsetP then ApplyVirtualOffset mem tk.virtualValue v1 else v1

/-- A formal parameter of the thunk: its attribute flags
(`hasStructRetAttr` / `hasNestAttr`) and the incoming value (an address). -/
structure ThunkParam where
  isSRet : Bool
  isNest : Bool
  value : Int
deriving DecidableEq, Repr

/-- The argument-building loop of `emit_thunk` (Backend.cpp lines
1720-1753): walk the parameters, passing everything through unchanged until
"this" is found — skipping struct-return and static-chain parameters — and
adjust only that one.  `foundThis` starts out `true` when the thunk is not
"this"-adjusting, so that every parameter passes through unchanged. -/
def thunkCallArgs (tk : ThunkInfo) (mem : Int → Int) :
    Bool → List ThunkParam → List Int
| _, [] => []
| foundThis, p :: ps =>
  if foundThis ∨ p.isSRet ∨ p.isNest then
    p.value :: thunkCallArgs tk mem foundThis ps
  else
    adjustThis tk mem p.value :: thunkCallArgs tk mem true ps

/-- The argument list `emit_thunk` passes to the tail call. -/
def emitThunkArgs (tk : ThunkInfo) (mem : Int → Int)
    (params : List ThunkParam) : List Int :=
  thunkCallArgs tk mem (!tk.thisAdjusting) params

/-- The value returned by the emitted thunk, given the value returned by the
tail call (Backend.cpp lines 1762-1801).  A "this"-adjusting thunk returns
the call's value unchanged.  A covariant-return thunk first compares the
returned pointer against null and branches: the null branch returns null
unmodified, the non-null branch applies the virtual offset (when present)
and then the fixed offset (when nonzero). -/
def thunkReturnValue (tk : ThunkInfo) (mem : Int → Int) (callResult : Int) : Int :=
  if tk.thisAdjusting then callResult
  else if callResult = 0 then 0
  else
    let r1 :=
      if tk.virtualOffsetP then ApplyVirtualOffset mem tk.virtualValue callResult
      else callResult
    if tk.fixedOffset ≠ 0 then r1 + tk.fixedOffset else r1

/-- A thunk cgraph node (`node->decl` and `node->thunk`). -/
structure CgraphNode where
  decl : Nat
  thunk : ThunkInfo
deriving Repr

/-- `emit_thunk(node)` (Backend.cpp lines 1693-1802) at the state level:
the error gate, the varargs rejection, marking the thunk written, and the
linkage/visibility assignment; the generated body is recorded on the thunk
symbol as its `ThunkInfo` (its instruction-level meaning is given by
`emitThunkArgs` / `thunkReturnValue`). -/
def emit_thunk (s : CompState) (node : CgraphNode) : Option CompState :=
  if hasErrors s then some s  -- Do not process broken code.
  else
    (declLLVM s node.decl).bind (fun p =>
    p.1.constSid.bind (fun fid =>
    (findSymbol p.2 fid).bind (fun thunkSym =>
    -- cast<Function> and the varargs test.
    match thunkSym.elemTy with
    | .funcTy varArg =>
      if varArg then
        some (reportUnimpl p.2 "thunks to varargs functions not supported")
      else
        -- Mark the thunk as written.
        let s2 := markAsmWritten p.2 node.decl
        -- Set the linkage and visibility.
        let d := s2.decls node.decl
        let s3 := updateSymbol s2 fid
          (fun g => { g with linkage := GetLinkageForAlias s2.flagOdr d })
        let s4 := updateSymbol s3 fid (handleVisibility d)
        -- Materialize the thunk alias (DECL_LLVM(node->thunk.alias)) and
        -- record the emitted body.
        (declLLVM s4 node.thunk.aliasDecl).bind (fun q =>
        some (updateSymbol q.2 fid
          (fun g => { g with thunkDescr := some node.thunk })))
    | _ => none)))

/-! ### The variable-emission pass entry (`emit_variables`) -/

/-- `emit_variables` (Backend.cpp lines 1987-2013), the public entry of the
variable-emission IPA pass: emit every externally visible or force-retained
static variable, then the collected alias pairs.  (`InitializeBackend` is
configuration work outside the emission core and is not modelled.) -/
def emit_variables (fuel : Nat) (s : CompState) : Option CompState :=
  if hasErrors s then some s  -- Do not process broken code.
  else
    let afterVars :=
      s.staticVariables.foldl
        (fun acc t =>
          acc.bind (fun s1 =>
            let d := s1.decls t
            if d.code = .varDeclC ∧ (d.isPublic ∨ d.preserve) then
              emit_global fuel s1 t
            else some s1))
        (some s)
    s.aliasPairs.foldl
      (fun acc pr => acc.bind (fun s1 => emit_alias fuel s1 pr.1 pr.2))
      afterVars

/-! ### Concrete base states used by the evaluation witnesses -/

/-- A plain internal static `int` variable declaration; witnesses adjust the
fields they need. -/
def declDefault : Decl :=
  { code := .varDeclC, declTy := .intTy 32, hasTypeSize := true,
    isPublic := false, isStatic := true, isExternal := false,
    isRegister := false, isWeak := false, isCommon := false,
    isOneOnly := false, isComdat := false, isThreadLocal := false,
    isReadonly := false, hasSideEffects := false, declInit := .noInit,
    assemblerName := "", declSection := none, declAlign := 0,
    userAlign := false, preserve := false, visSpecified := false,
    visibility := .defaultVis, hasWeakrefAttr := false, regNumber := 0,
    isBLKmode := false, isAggregateTy := false, isVolatile := false }

/-- The state of a freshly started compilation unit. -/
def emptyState : CompState :=
  { decls := fun _ => declDefault, symbols := [], nextId := 0,
    cache := fun _ => none, staticCtors := [], staticDtors := [],
    attributeUsedGlobals := [], attributeCompilerUsedGlobals := [],
    errorcount := 0, unimplCount := 0, diagnostics := [],
    asmWritten := fun _ => false, flagOdr := false, abiAlign := fun _ => 1,
    cgraphForAsm := fun _ => none, varpoolForAsm := fun _ => none,
    staticVariables := [], aliasPairs := [] }

/-! ## Supporting lemmas -/

theorem truncSigned_self (w : Nat) (hw : 1 ≤ w) (x : Int)
    (h1 : -(2 ^ (w - 1)) ≤ x) (h2 : x < 2 ^ (w - 1)) : truncSigned w x = x := by
  unfold truncSigned
  have hpow : (2 : Int) ^ w = 2 ^ (w - 1) * 2 := by
    conv_lhs => rw [show w = (w - 1) + 1 from (Nat.succ_pred_eq_of_pos hw).symm]
    rw [pow_succ]
  have h0 : 0 ≤ x + 2 ^ (w - 1) := by linarith
  have hlt : x + 2 ^ (w - 1) < 2 ^ w := by rw [hpow]; linarith
  rw [Int.emod_eq_of_lt h0 hlt]; ring

/-! ## Claims -/

/-- **C8.** For every declaration `t` without storage and every non-negative
`int` index `i` (so `0 ≤ i < 2^31`), `get_decl_index` after
`set_decl_index t i` returns exactly `i` (the index being stored as the
negative word `-i-1`, keeping the null cell meaning "unset"), and on a cache
cell never written (holding 0) `get_decl_index` returns a negative value. -/
theorem c8_decl_index_encoding (cache : Nat → Int) (t : Nat) (i : Int)
    (h0 : 0 ≤ i) (h1 : i < 2 ^ 31) :
    get_decl_index (set_decl_index cache t i) t = i ∧
    (∀ (c2 : Nat → Int) (t2 : Nat), c2 t2 = 0 → get_decl_index c2 t2 < 0) := by
  constructor
  · have e64 : truncSigned 64 (-i - 1) = -i - 1 := by
      refine truncSigned_self 64 (by norm_num) _ ?_ ?_
      · have : (2 : Int) ^ 31 ≤ 2 ^ 63 := by norm_num
        simp only [show (64 : Nat) - 1 = 63 from rfl]
        linarith
      · simp only [show (64 : Nat) - 1 = 63 from rfl]
        have : (0 : Int) < 2 ^ 63 := by norm_num
        linarith
    have e32 : truncSigned 32 (-i - 1) = -i - 1 := by
      refine truncSigned_self 32 (by norm_num) _ ?_ ?_
      · simp only [show (32 : Nat) - 1 = 31 from rfl]
        linarith
      · simp only [show (32 : Nat) - 1 = 31 from rfl]
        have : (0 : Int) < 2 ^ 31 := by norm_num
        linarith
    unfold get_decl_index set_decl_index llvm_get_cached llvm_set_cached
    rw [if_pos rfl, e64, e32]; ring
  · intro c2 t2 h
    unfold get_decl_index llvm_get_cached
    rw [h]
    have : truncSigned 32 0 = 0 := by unfold truncSigned; norm_num
    rw [this]; norm_num

/-- Witness for C8 at a concrete cache, declaration and index. -/
theorem c8_decl_index_encoding_witness :
    get_decl_index (set_decl_index (fun _ => 0) 3 5) 3 = 5 ∧
    (∀ (c2 : Nat → Int) (t2 : Nat), c2 t2 = 0 → get_decl_index c2 t2 < 0) :=
  c8_decl_index_encoding (fun _ => 0) 3 5 (by norm_num) (by norm_num)

/-- **C2.** The linkage assigned by `emit_global` follows the spec's
classification table with first-match-wins precedence: {public, no flags}
keeps the symbol's creation linkage (external); {not public} is internal;
{public, weak} is weak-any regardless of the ODR flag; {public, one-only} is
the weak variant selected by the ODR flag; {public, common, no explicit
initializer} is common; {public, comdat} is the link-once variant selected
by the ODR flag; and for a symbol marked constant weak-any is upgraded to
weak-ODR and link-once-any to link-once-ODR. -/
theorem c2_linkage_classification (d : Decl) (odr : Bool) (gvL : Linkage) :
    (d.isPublic = true → d.isWeak = false → d.isOneOnly = false →
      d.isCommon = false → d.isComdat = false →
      emitGlobalLinkage d odr .externalL false = .externalL) ∧
    (d.isPublic = false → emitGlobalLinkage d odr gvL false = .internalL) ∧
    (d.isPublic = true → d.isWeak = true →
      emitGlobalLinkage d odr gvL false = .weakAnyL) ∧
    (d.isPublic = true → d.isWeak = false → d.isOneOnly = true →
      emitGlobalLinkage d odr gvL false = getWeakLinkage odr) ∧
    (d.isPublic = true → d.isWeak = false → d.isOneOnly = false →
      d.isCommon = true → (d.declInit = .noInit ∨ d.declInit = .errorMark) →
      emitGlobalLinkage d odr gvL false = .commonL) ∧
    (d.isPublic = true → d.isWeak = false → d.isOneOnly = false →
      ¬(d.isCommon = true ∧ (d.declInit = .noInit ∨ d.declInit = .errorMark)) →
      d.isComdat = true →
      emitGlobalLinkage d odr gvL false = getLinkOnceLinkage odr) ∧
    (emitGlobalLinkage d odr gvL true =
      constantLinkageUpgrade (emitGlobalLinkage d odr gvL false)) ∧
    (getWeakLinkage true = .weakODRL ∧ getWeakLinkage false = .weakAnyL) ∧
    (getLinkOnceLinkage true = .linkOnceODRL ∧
      getLinkOnceLinkage false = .linkOnceAnyL) ∧
    (constantLinkageUpgrade .weakAnyL = .weakODRL ∧
      constantLinkageUpgrade .linkOnceAnyL = .linkOnceODRL) := by
  refine ⟨?_, ?_, ?_, ?_, ?_, ?_, ?_, ⟨rfl, rfl⟩, ⟨rfl, rfl⟩, ⟨rfl, rfl⟩⟩
  · intro h1 h2 h3 h4 h5
    simp [emitGlobalLinkage, declLLVMPrivateTest, declLLVMLinkerPrivateTest,
      h1, h2, h3, h4, h5]
  · intro h1
    simp [emitGlobalLinkage, declLLVMPrivateTest, declLLVMLinkerPrivateTest, h1]
  · intro h1 h2
    simp [emitGlobalLinkage, declLLVMPrivateTest, declLLVMLinkerPrivateTest,
      h1, h2]
  · intro h1 h2 h3
    simp [emitGlobalLinkage, declLLVMPrivateTest, declLLVMLinkerPrivateTest,
      h1, h2, h3]
  · intro h1 h2 h3 h4 h5
    simp [emitGlobalLinkage, declLLVMPrivateTest, declLLVMLinkerPrivateTest,
      h1, h2, h3, h4, h5]
  · intro h1 h2 h3 h4 h5
    simp [emitGlobalLinkage, declLLVMPrivateTest, declLLVMLinkerPrivateTest,
      h1, h2, h3, h4, h5]
  · simp only [emitGlobalLinkage, if_pos, if_neg, Bool.false_eq_true,
      if_false, if_true]

/-- Witness for C2: the table at concrete attribute rows. -/
theorem c2_linkage_classification_witness :
    emitGlobalLinkage { declDefault with isPublic := true } false .externalL false
      = .externalL ∧
    emitGlobalLinkage declDefault false .externalL false = .internalL ∧
    emitGlobalLinkage { declDefault with isPublic := true, isWeak := true } true
      .externalL false = .weakAnyL ∧
    emitGlobalLinkage { declDefault with isPublic := true, isOneOnly := true } true
      .externalL false = .weakODRL ∧
    emitGlobalLinkage { declDefault with isPublic := true, isCommon := true } false
      .externalL false = .commonL ∧
    emitGlobalLinkage
      { declDefault with
        isPublic := true, isComdat := true,
        declInit := .initOf (.intLit 0 (.intTy 32)) } false .externalL false
      = .linkOnceAnyL ∧
    emitGlobalLinkage { declDefault with isPublic := true, isWeak := true } false
      .externalL true = .weakODRL := by
  refine ⟨?_, ?_, ?_, ?_, ?_, ?_, ?_⟩
  · exact (c2_linkage_classification { declDefault with isPublic := true }
      false .externalL).1 rfl rfl rfl rfl rfl
  · exact (c2_linkage_classification declDefault false .externalL).2.1 rfl
  · exact (c2_linkage_classification
      { declDefault with isPublic := true, isWeak := true } true .externalL).2.2.1
      rfl rfl
  · exact (c2_linkage_classification
      { declDefault with isPublic := true, isOneOnly := true } true
      .externalL).2.2.2.1 rfl rfl rfl
  · exact (c2_linkage_classification
      { declDefault with isPublic := true, isCommon := true } false
      .externalL).2.2.2.2.1 rfl rfl rfl rfl (Or.inl rfl)
  · exact (c2_linkage_classification
      { declDefault with
        isPublic := true, isComdat := true,
        declInit := .initOf (.intLit 0 (.intTy 32)) } false
      .externalL).2.2.2.2.2.1 rfl rfl rfl (by simp) rfl
  · have h := (c2_linkage_classification
      { declDefault with isPublic := true, isWeak := true } false
      .externalL).2.2.2.2.2.2.1
    rw [h]
    rfl

/-- **C6.** In a covariant-return thunk the call's return value is tested
against null before any adjustment: a null return is passed back unmodified
(the fixed and virtual offsets are never applied to it), and a non-null
return is adjusted by the virtual offset first (when present) and then by
the fixed offset. -/
theorem c6_covariant_null_guard (tk : ThunkInfo) (mem : Int → Int) (r : Int)
    (hAdj : tk.thisAdjusting = false) :
    thunkReturnValue tk mem 0 = 0 ∧
    (r ≠ 0 → tk.virtualOffsetP = true → tk.fixedOffset ≠ 0 →
      thunkReturnValue tk mem r =
        ApplyVirtualOffset mem tk.virtualValue r + tk.fixedOffset) ∧
    (r ≠ 0 → tk.virtualOffsetP = true → tk.fixedOffset = 0 →
      thunkReturnValue tk mem r = ApplyVirtualOffset mem tk.virtualValue r) ∧
    (r ≠ 0 → tk.virtualOffsetP = false →
      thunkReturnValue tk mem r = r + tk.fixedOffset) := by
  refine ⟨?_, ?_, ?_, ?_⟩
  · simp [thunkReturnValue, hAdj]
  · intro hr hv hf
    simp [thunkReturnValue, hAdj, hr, hv, hf]
  · intro hr hv hf
    simp [thunkReturnValue, hAdj, hr, hv, hf]
  · intro hr hv
    simp only [thunkReturnValue, hAdj, Bool.false_eq_true, if_false, if_neg hr,
      hv]
    split
    · rfl
    · omega

/-- Witness for C6: a concrete covariant thunk with virtual slot 12 and
fixed offset 4 over a concrete vtable memory. -/
theorem c6_covariant_null_guard_witness :
    thunkReturnValue
      { thisAdjusting := false, fixedOffset := 4, virtualOffsetP := true,
        virtualValue := 12, aliasDecl := 0 } (fun _ => 8) 0 = 0 ∧
    ((100 : Int) ≠ 0 → true = true → (4 : Int) ≠ 0 →
      thunkReturnValue
        { thisAdjusting := false, fixedOffset := 4, virtualOffsetP := true,
          virtualValue := 12, aliasDecl := 0 } (fun _ => 8) 100 =
        ApplyVirtualOffset (fun _ => 8) 12 100 + 4) := by
  have h := c6_covariant_null_guard
    { thisAdjusting := false, fixedOffset := 4, virtualOffsetP := true,
      virtualValue := 12, aliasDecl := 0 } (fun _ => 8) 100 rfl
  exact ⟨h.1, fun h1 _ h3 => h.2.1 h1 rfl h3⟩

/-- The argument loop after "this" has been located: every remaining
parameter is passed through unchanged. -/
theorem thunkCallArgs_after_found (tk : ThunkInfo) (mem : Int → Int)
    (l : List ThunkParam) :
    thunkCallArgs tk mem true l = l.map ThunkParam.value := by
  induction l with
  | nil => rfl
  | cons p ps ih => simp [thunkCallArgs, ih]

/-- The argument loop locates "this" past the struct-return / static-chain
parameters and adjusts exactly that argument. -/
theorem thunkCallArgs_locates (tk : ThunkInfo) (mem : Int → Int)
    (pre post : List ThunkParam) (p : ThunkParam)
    (hpre : ∀ q ∈ pre, q.isSRet = true ∨ q.isNest = true)
    (hs : p.isSRet = false) (hn : p.isNest = false) :
    thunkCallArgs tk mem false (pre ++ p :: post) =
      pre.map ThunkParam.value ++
        adjustThis tk mem p.value :: post.map ThunkParam.value := by
  induction pre with
  | nil =>
    simp [thunkCallArgs, hs, hn, thunkCallArgs_after_found]
  | cons q qs ih =>
    have hq := hpre q (by simp)
    have hqs : ∀ x ∈ qs, x.isSRet = true ∨ x.isNest = true :=
      fun x hx => hpre x (by simp [hx])
    rcases hq with hq | hq <;>
      simp [thunkCallArgs, hq, ih hqs]

/-- **C7.** A "this"-adjusting thunk passes every parameter through
unchanged except the located "this" parameter (skipping the struct-return
and static-chain parameters that precede it); with fixed offset F and no
virtual offset the "this" passed to the tail call is exactly the incoming
pointer advanced by F bytes, and when a virtual offset is also present the
fixed offset is applied before the virtual offset. -/
theorem c7_this_adjusting_thunk (tk : ThunkInfo) (mem : Int → Int)
    (pre post : List ThunkParam) (p : ThunkParam)
    (hAdj : tk.thisAdjusting = true)
    (hpre : ∀ q ∈ pre, q.isSRet = true ∨ q.isNest = true)
    (hs : p.isSRet = false) (hn : p.isNest = false) :
    (tk.virtualOffsetP = false →
      emitThunkArgs tk mem (pre ++ p :: post) =
        pre.map ThunkParam.value ++
          (p.value + tk.fixedOffset) :: post.map ThunkParam.value) ∧
    (tk.fixedOffset ≠ 0 → tk.virtualOffsetP = true →
      adjustThis tk mem p.value =
        ApplyVirtualOffset mem tk.virtualValue (p.value + tk.fixedOffset)) := by
  constructor
  · intro hv
    have hloc := thunkCallArgs_locates tk mem pre post p hpre hs hn
    have hadj : adjustThis tk mem p.value = p.value + tk.fixedOffset := by
      simp only [adjustThis, hv, Bool.false_eq_true, if_false]
      split
      · rfl
      · omega
    rw [emitThunkArgs, hAdj] at *
    simpa [hadj] using hloc
  · intro hf hv
    simp [adjustThis, hf, hv]

/-- Witness for C7: a thunk with fixed offset 16, one struct-return
parameter before "this", and one trailing parameter. -/
theorem c7_this_adjusting_thunk_witness :
    emitThunkArgs
      { thisAdjusting := true, fixedOffset := 16, virtualOffsetP := false,
        virtualValue := 0, aliasDecl := 0 } (fun _ => 0)
      ([⟨true, false, 500⟩] ++ ⟨false, false, 1000⟩ :: [⟨false, false, 7⟩]) =
      [500] ++ (1000 + 16) :: [7] :=
  (c7_this_adjusting_thunk
    { thisAdjusting := true, fixedOffset := 16, virtualOffsetP := false,
      virtualValue := 0, aliasDecl := 0 } (fun _ => 0)
    [⟨true, false, 500⟩] [⟨false, false, 7⟩] ⟨false, false, 1000⟩
    rfl (by simp) rfl rfl).1 rfl

/-- Writing the cache at `t` makes `t` read back the written value. -/
theorem setCache_hit (s : CompState) (t : Nat) (v : Const) :
    (setCache s t v).cache t = some v := by
  simp [setCache]

/-- Every successful exit of the function branch caches the returned
value (`return SET_DECL_LLVM(decl, FnEntry)`). -/
theorem make_decl_llvm_function_caches (s2 : CompState) (t : Nat) (d : Decl)
    (name : String) :
    ∀ v s1, make_decl_llvm_function s2 t d name = (some v, s1) →
      s1.cache t = some v := by
  intro v s1 h
  unfold make_decl_llvm_function at h
  split at h
  all_goals
    rw [Prod.mk.injEq] at h
    rw [← h.2, ← h.1]
    exact setCache_hit _ _ _

/-- Every successful exit of the variable branch caches the returned
value (`return SET_DECL_LLVM(decl, GV)`). -/
theorem make_decl_llvm_variable_caches (s2 : CompState) (t : Nat) (d : Decl)
    (name : String) :
    ∀ v s1, make_decl_llvm_variable s2 t d name = (some v, s1) →
      s1.cache t = some v := by
  intro v s1 h
  unfold make_decl_llvm_variable at h
  dsimp only at h
  repeat' split at h
  all_goals first
    | (rw [Prod.mk.injEq] at h; exact Option.noConfusion h.1)
    | (rw [Prod.mk.injEq] at h; rw [← h.2, ← h.1]; exact setCache_hit _ _ _)

/-- Every successful exit of the uncached tail caches the returned value. -/
theorem make_decl_llvm_uncached_caches (s2 : CompState) (t : Nat)
    (name : String) :
    ∀ v s1, make_decl_llvm_uncached s2 t name = (some v, s1) →
      s1.cache t = some v := by
  intro v s1 h
  unfold make_decl_llvm_uncached at h
  dsimp only at h
  split at h
  · exact make_decl_llvm_function_caches _ _ _ _ v s1 h
  · exact make_decl_llvm_variable_caches _ _ _ _ v s1 h

/-- Every successful call of `make_decl_llvm` leaves the returned value in
the declaration identity cache. -/
theorem make_decl_llvm_caches (s : CompState) (t : Nat) :
    ∀ v s1, make_decl_llvm s t = (some v, s1) → s1.cache t = some v := by
  intro v s1 h
  unfold make_decl_llvm at h
  split at h
  case h_1 v' heq =>
    rw [Prod.mk.injEq] at h
    rw [← h.2, ← h.1]
    exact heq
  case h_2 heq =>
    split at h
    case isTrue =>
      rw [Prod.mk.injEq] at h
      exact Option.noConfusion h.1
    case isFalse =>
      dsimp only at h
      split at h
      case isTrue =>
        rw [Prod.mk.injEq] at h
        exact Option.noConfusion h.1
      case isFalse =>
        exact make_decl_llvm_uncached_caches _ _ _ v s1 h

/-- **C4.** Materialization is idempotent: when `make_decl_llvm` returns a
symbol, that symbol has been stored in the declaration identity cache, and
calling `make_decl_llvm` again on the same declaration returns exactly the
cached symbol with the state unchanged (no new global is created). -/
theorem c4_materialize_idempotent (s : CompState) (t : Nat) (v : Const)
    (s1 : CompState) (h : make_decl_llvm s t = (some v, s1)) :
    s1.cache t = some v ∧ make_decl_llvm s1 t = (some v, s1) := by
  have hc := make_decl_llvm_caches s t v s1 h
  refine ⟨hc, ?_⟩
  unfold make_decl_llvm
  rw [hc]

/-- A concrete static variable declaration named "x" for the C4 witness. -/
def c4State : CompState :=
  { emptyState with decls := fun _ => { declDefault with assemblerName := "x" } }

/-- The symbol the first materialization of `c4State`'s declaration 0
returns. -/
def c4V : Const := Const.globalRef 0 (Ty.ptrTo (Ty.intTy 32))

/-- The state after the first materialization. -/
def c4S1 : CompState := (make_decl_llvm c4State 0).2

/-- Witness for C4: materializing declaration 0 of `c4State` twice. -/
theorem c4_materialize_idempotent_witness :
    c4S1.cache 0 = some c4V ∧ make_decl_llvm c4S1 0 = (some c4V, c4S1) :=
  c4_materialize_idempotent c4State 0 c4V c4S1 (by rfl)

/-- `ValidateRegisterVariable` only reports diagnostics: it never changes
the module, the identity cache, or the declaration store. -/
theorem ValidateRegisterVariable_only_reports (s : CompState) (d : Decl) :
    ((ValidateRegisterVariable s d).2).symbols = s.symbols ∧
    ((ValidateRegisterVariable s d).2).cache = s.cache ∧
    ((ValidateRegisterVariable s d).2).decls = s.decls := by
  unfold ValidateRegisterVariable
  repeat' split
  all_goals simp [reportError, reportUnimpl, reportWarning]

/-- **C10.** For a non-function declaration marked as a register variable,
`make_decl_llvm` returns no symbol and creates no global: it only runs
`ValidateRegisterVariable`, which reports the appropriate diagnostic when
the declaration is malformed, and the declaration identity cache is left
unset. -/
theorem c10_register_variable (s : CompState) (t : Nat)
    (hcache : s.cache t = none) (herr : ¬ hasErrors s)
    (hcode : (s.decls t).code ≠ .functionDeclC)
    (hreg : (s.decls t).isRegister = true) :
    make_decl_llvm s t = (none, (ValidateRegisterVariable s (s.decls t)).2) ∧
    ((ValidateRegisterVariable s (s.decls t)).2).symbols = s.symbols ∧
    ((ValidateRegisterVariable s (s.decls t)).2).cache t = none ∧
    ((s.decls t).regNumber = -1 →
      (ValidateRegisterVariable s (s.decls t)).2 =
        reportError s "register name not specified for decl") ∧
    ((s.decls t).regNumber < 0 → (s.decls t).regNumber ≠ -1 →
      (ValidateRegisterVariable s (s.decls t)).2 =
        reportError s "invalid register name for decl") ∧
    (0 ≤ (s.decls t).regNumber → (s.decls t).isBLKmode = true →
      (ValidateRegisterVariable s (s.decls t)).2 =
        reportError s "data type of decl is not suitable for a register") ∧
    (0 ≤ (s.decls t).regNumber → (s.decls t).isBLKmode = false →
      (s.decls t).declInit ≠ .noInit → (s.decls t).isStatic = true →
      (ValidateRegisterVariable s (s.decls t)).2 =
        reportError s "global register variable has initial value") ∧
    (0 ≤ (s.decls t).regNumber → (s.decls t).isBLKmode = false →
      ¬((s.decls t).declInit ≠ .noInit ∧ (s.decls t).isStatic = true) →
      (s.decls t).isAggregateTy = true →
      (ValidateRegisterVariable s (s.decls t)).2 =
        reportUnimpl s "LLVM cannot handle register variable, report a bug") := by
  have hpres := ValidateRegisterVariable_only_reports s (s.decls t)
  refine ⟨?_, hpres.1, ?_, ?_, ?_, ?_, ?_, ?_⟩
  · unfold make_decl_llvm
    rw [hcache]
    rw [if_neg herr, if_pos ⟨hcode, hreg⟩]
  · rw [hpres.2.1]
    exact hcache
  · intro h1
    unfold ValidateRegisterVariable
    rw [if_neg herr, if_pos h1]
  · intro h1 h2
    unfold ValidateRegisterVariable
    rw [if_neg herr, if_neg h2, if_pos h1]
  · intro h1 h2
    have hne : ¬ (s.decls t).regNumber = -1 := by omega
    have hnl : ¬ (s.decls t).regNumber < 0 := by omega
    unfold ValidateRegisterVariable
    rw [if_neg herr, if_neg hne, if_neg hnl, if_pos h2]
  · intro h1 h2 h3 h4
    have hne : ¬ (s.decls t).regNumber = -1 := by omega
    have hnl : ¬ (s.decls t).regNumber < 0 := by omega
    have hmode : ¬ (s.decls t).isBLKmode = true := by simp [h2]
    unfold ValidateRegisterVariable
    rw [if_neg herr, if_neg hne, if_neg hnl, if_neg hmode, if_pos ⟨h3, h4⟩]
  · intro h1 h2 h3 h4
    have hne : ¬ (s.decls t).regNumber = -1 := by omega
    have hnl : ¬ (s.decls t).regNumber < 0 := by omega
    have hmode : ¬ (s.decls t).isBLKmode = true := by simp [h2]
    unfold ValidateRegisterVariable
    rw [if_neg herr, if_neg hne, if_neg hnl, if_neg hmode, if_neg h3,
      if_pos h4]

/-- A malformed global register variable (no register name given) for the
C10 witness. -/
def c10State : CompState :=
  { emptyState with
    decls := fun _ =>
      { declDefault with isRegister := true, regNumber := -1 } }

/-- Witness for C10: `make_decl_llvm` on the malformed register variable of
`c10State` returns no symbol, creates nothing, leaves the cache unset, and
reports the missing-register-name error. -/
theorem c10_register_variable_witness :
    make_decl_llvm c10State 0 =
      (none, (ValidateRegisterVariable c10State (c10State.decls 0)).2) ∧
    ((ValidateRegisterVariable c10State (c10State.decls 0)).2).symbols =
      c10State.symbols ∧
    ((ValidateRegisterVariable c10State (c10State.decls 0)).2).cache 0 = none ∧
    (ValidateRegisterVariable c10State (c10State.decls 0)).2 =
      reportError c10State "register name not specified for decl" := by
  have h := c10_register_variable c10State 0 rfl
    (by simp [hasErrors, c10State, emptyState]) (by simp [c10State, declDefault])
    (by simp [c10State, declDefault])
  exact ⟨h.1, h.2.1, h.2.2.1, h.2.2.2.1 rfl⟩

/-- **C9 (amended).** Once an error or "sorry" has been reported, the public
emission entry points are no-ops, each checking at its top: `make_decl_llvm`
leaves the state untouched (and materializes nothing when the declaration is
uncached), and `emit_alias`, `emit_thunk` and the variable-emission pass
entry `emit_variables` return the state unchanged.  (`emit_global` itself
performs no such check — see the counterexample — and relies on its gated
callers.) -/
theorem c9_error_gates (s : CompState) (fuel t : Nat) (tg : AliasTarget)
    (node : CgraphNode) (h : hasErrors s) :
    (make_decl_llvm s t).2 = s ∧
    (s.cache t = none → make_decl_llvm s t = (none, s)) ∧
    emit_alias fuel s t tg = some s ∧
    emit_thunk s node = some s ∧
    emit_variables fuel s = some s := by
  refine ⟨?_, ?_, ?_, ?_, ?_⟩
  · unfold make_decl_llvm
    split
    · rfl
    · rw [if_pos h]
  · intro hc
    unfold make_decl_llvm
    simp only [hc]
    rw [if_pos h]
  · unfold emit_alias
    rw [if_pos h]
  · unfold emit_thunk
    rw [if_pos h]
  · unfold emit_variables
    rw [if_pos h]

/-- A unit in which an error has already been reported (`errorcount = 1`)
while a public variable declaration (id 0) is already materialized as the
uninitialized module global 7. -/
def c9ErrState : CompState :=
  { emptyState with
    errorcount := 1,
    decls := fun _ => { declDefault with assemblerName := "y", isPublic := true },
    symbols := [{ sid := 7, name := "y", kind := .gvarK, elemTy := .intTy 32,
                  linkage := .externalL, visibility := .defaultVis,
                  isConstant := false, threadLocal := false, initVal := none,
                  symSection := none, align := 0, aliaseeSid := none,
                  thunkDescr := none }],
    nextId := 8,
    cache := fun t =>
      if t = 0 then some (Const.globalRef 7 (Ty.ptrTo (Ty.intTy 32))) else none }

/-- Whether `emit_global` on declaration 0 of `c9ErrState` marks the
declaration as written (observable work). -/
def c9ProbeWritten : Option Bool :=
  (emit_global 1 c9ErrState 0).map (fun s2 => s2.asmWritten 0)

/-- The initializer `emit_global` installs on global 7 of `c9ErrState`. -/
def c9ProbeInit : Option (Option (Option Const)) :=
  (emit_global 1 c9ErrState 0).map
    (fun s2 => (findSymbol s2 7).map (fun g => g.initVal))

/-- **C9 (counterexample).** In a unit where an error has already been
reported, `emit_global` — the global-variable emission operation the claim
cites — still performs its work on an already-materialized declaration: it
installs the zero initializer and marks the declaration written.  So the
error check is not performed at the top of every emission operation. -/
theorem c9_counterexample :
    hasErrors c9ErrState ∧
    c9ErrState.asmWritten 0 = false ∧
    c9ProbeWritten = some true ∧
    c9ProbeInit = some (some (some (Const.zeroinit (Ty.intTy 32)))) := by
  refine ⟨Or.inl (by simp [c9ErrState, emptyState]), rfl, ?_, ?_⟩
  · rfl
  · rfl

/-- Witness for the amended C9 at the concrete error state and an uncached
declaration id. -/
theorem c9_error_gates_witness :
    (make_decl_llvm c9ErrState 5).2 = c9ErrState ∧
    (c9ErrState.cache 5 = none → make_decl_llvm c9ErrState 5 = (none, c9ErrState)) ∧
    emit_alias 1 c9ErrState 5 (AliasTarget.identNode "z" []) = some c9ErrState ∧
    emit_thunk c9ErrState
      ⟨5, { thisAdjusting := true, fixedOffset := 0, virtualOffsetP := false,
            virtualValue := 0, aliasDecl := 0 }⟩ = some c9ErrState ∧
    emit_variables 1 c9ErrState = some c9ErrState :=
  c9_error_gates c9ErrState 1 5 (AliasTarget.identNode "z" [])
    ⟨5, { thisAdjusting := true, fixedOffset := 0, virtualOffsetP := false,
          virtualValue := 0, aliasDecl := 0 }⟩
    (Or.inl (by simp [c9ErrState, emptyState]))

/-! ### Supporting lemmas about the identity cache and module lookups -/

theorem find?_sid_map (l : List Symbol) (F : Symbol → Symbol)
    (hF : ∀ g, (F g).sid = g.sid) (y : Nat) :
    (l.map F).find? (fun g => g.sid = y) =
      (l.find? (fun g => g.sid = y)).map F := by
  induction l with
  | nil => rfl
  | cons a l ih =>
    by_cases h : a.sid = y
    · simp [List.find?_cons, hF, h]
    · simp [List.find?_cons, hF, h, ih]

theorem findSymbol_updateSymbol (s : CompState) (x : Nat) (f : Symbol → Symbol)
    (hf : ∀ g, (f g).sid = g.sid) (y : Nat) :
    findSymbol (updateSymbol s x f) y =
      (findSymbol s y).map (fun g => if g.sid = x then f g else g) := by
  unfold findSymbol updateSymbol
  exact find?_sid_map s.symbols _ (fun g => by by_cases h : g.sid = x <;> simp [h, hf]) y

theorem findSymbol_sid (s : CompState) (y : Nat) (g : Symbol)
    (h : findSymbol s y = some g) : g.sid = y := by
  have := List.find?_some h
  simpa using this

theorem findSymbol_initVal_stable (s : CompState) (x gid : Nat)
    (f : Symbol → Symbol) (hf1 : ∀ g, (f g).sid = g.sid)
    (hf2 : ∀ g, (f g).initVal = g.initVal) :
    (findSymbol (updateSymbol s x f) gid).map Symbol.initVal =
      (findSymbol s gid).map Symbol.initVal := by
  rw [findSymbol_updateSymbol s x f hf1 gid]
  cases h : findSymbol s gid with
  | none => rfl
  | some g =>
    by_cases hx : g.sid = x <;> simp [hx, hf2]

theorem handleVisibility_initVal (d : Decl) (g : Symbol) :
    (handleVisibility d g).initVal = g.initVal := by
  unfold handleVisibility
  split
  · split <;> rfl
  · rfl

theorem handleVisibility_sid (d : Decl) (g : Symbol) :
    (handleVisibility d g).sid = g.sid := by
  unfold handleVisibility
  split
  · split <;> rfl
  · rfl

theorem createBitCast_typeOf (c : Const) (ty : Ty) :
    (createBitCast c ty).typeOf = ty := by
  unfold createBitCast
  split
  · assumption
  · rfl

theorem initVal_of_map (s : CompState) (gid : Nat) (c : Const)
    (h : (findSymbol s gid).map Symbol.initVal = some (some c)) :
    ∃ g2, findSymbol s gid = some g2 ∧ g2.initVal = some c := by
  cases hf : findSymbol s gid with
  | none => rw [hf] at h; exact absurd h (by simp)
  | some g => rw [hf] at h; exact ⟨g, rfl, by simpa using h⟩

theorem findSymbol_markAsmWritten (s : CompState) (t y : Nat) :
    findSymbol (markAsmWritten s t) y = findSymbol s y := rfl

theorem findSymbol_setUsed (x : CompState) (u : List Const) (y : Nat) :
    findSymbol { x with attributeUsedGlobals := u } y = findSymbol x y := rfl

theorem emit_global_finish_initVal (s4 : CompState) (t gid2 : Nat) (d : Decl)
    (gv3 : Symbol) (initC : Const) (g : Symbol)
    (hg : findSymbol s4 gid2 = some g) :
    ∃ g2, findSymbol (emit_global_finish s4 t gid2 d gv3 initC) gid2 = some g2 ∧
      g2.initVal = some initC := by
  have hgsid : g.sid = gid2 := findSymbol_sid s4 gid2 g hg
  unfold emit_global_finish
  dsimp only
  -- step 5: the initializer is installed
  have h5 : (findSymbol (updateSymbol s4 gid2
      (fun g => { g with initVal := some initC })) gid2).map Symbol.initVal =
      some (some initC) := by
    rw [findSymbol_updateSymbol s4 gid2
      (fun g => { g with initVal := some initC }) (fun g => rfl) gid2, hg]
    simp [hgsid]
  -- all later steps preserve the initializer
  generalize hS5 : (updateSymbol s4 gid2
      (fun g => { g with initVal := some initC })) = s5 at h5
  have step : ∀ (x : CompState),
      (findSymbol x gid2).map Symbol.initVal = some (some initC) →
      ∀ (f : Symbol → Symbol), (∀ g, (f g).sid = g.sid) →
        (∀ g, (f g).initVal = g.initVal) →
      (findSymbol (updateSymbol x gid2 f) gid2).map Symbol.initVal =
        some (some initC) := by
    intro x hx f hf1 hf2
    rw [findSymbol_initVal_stable x gid2 gid2 f hf1 hf2]
    exact hx
  have h6 : ∀ (x : CompState),
      (findSymbol x gid2).map Symbol.initVal = some (some initC) →
      (findSymbol (if d.code = TreeCode.varDeclC ∧ d.isThreadLocal = true then
        updateSymbol x gid2 (fun g => { g with threadLocal := true }) else x)
        gid2).map Symbol.initVal = some (some initC) := by
    intro x hx
    split
    · exact step x hx _ (fun g => rfl) (fun g => rfl)
    · exact hx
  have h6' := h6 s5 h5
  generalize hS6 : (if d.code = TreeCode.varDeclC ∧ d.isThreadLocal = true then
      updateSymbol s5 gid2 (fun g => { g with threadLocal := true }) else s5) =
    s6 at h6' ⊢
  have h7 := step s6 h6'
    (fun g => { g with
      linkage := emitGlobalLinkage d s6.flagOdr gv3.linkage gv3.isConstant })
    (fun g => rfl) (fun g => rfl)
  generalize hS7 : updateSymbol s6 gid2
    (fun g => { g with
      linkage := emitGlobalLinkage d s6.flagOdr gv3.linkage gv3.isConstant }) =
    s7 at h7 ⊢
  have h8 := step s7 h7 (handleVisibility d) (handleVisibility_sid d)
    (handleVisibility_initVal d)
  generalize hS8 : updateSymbol s7 gid2 (handleVisibility d) = s8 at h8 ⊢
  apply initVal_of_map
  rw [findSymbol_markAsmWritten]
  by_cases hvar : d.code = TreeCode.varDeclC
  · rw [if_pos hvar]
    cases hsec : d.declSection with
    | none =>
      dsimp only
      generalize hSB : (if d.declAlign ≠ 0 ∧
          (d.userAlign = true ∨ 8 * s4.abiAlign gv3.elemTy < d.declAlign) then
        updateSymbol s8 gid2 (fun g => { g with align := d.declAlign / 8 })
        else s8) = sB
      have hB : (findSymbol sB gid2).map Symbol.initVal = some (some initC) := by
        rw [← hSB]
        split
        · exact step s8 h8 _ (fun g => rfl) (fun g => rfl)
        · exact h8
      split
      · rw [findSymbol_setUsed]
        exact hB
      · exact hB
    | some sec =>
      dsimp only
      generalize hSA : updateSymbol s8 gid2
        (fun g => { g with symSection := some sec }) = sA
      have hA : (findSymbol sA gid2).map Symbol.initVal = some (some initC) := by
        rw [← hSA]
        exact step s8 h8 _ (fun g => rfl) (fun g => rfl)
      generalize hSB : (if d.declAlign ≠ 0 ∧
          (d.userAlign = true ∨ 8 * s4.abiAlign gv3.elemTy < d.declAlign) then
        updateSymbol sA gid2 (fun g => { g with align := d.declAlign / 8 })
        else sA) = sB
      have hB : (findSymbol sB gid2).map Symbol.initVal = some (some initC) := by
        rw [← hSB]
        split
        · exact step sA hA _ (fun g => rfl) (fun g => rfl)
        · exact hA
      split
      · rw [findSymbol_setUsed]
        exact hB
      · exact hB
  · rw [if_neg hvar]
    exact h8

/-- **C3.** A global whose initializer takes the address of its own
declaration terminates without re-entering initializer conversion — fuel 1
suffices, because the undefined-value placeholder installed before
conversion makes `make_definition_llvm` return the symbol directly — and
the finished symbol's initializer is a (possibly cast) pointer to the symbol
itself, neither null nor the undefined placeholder. -/
theorem c3_self_reference_guard (s : CompState) (t gid : Nat) (gv : Symbol)
    (hcode : (s.decls t).code = .varDeclC)
    (hreg : (s.decls t).isRegister = false)
    (hsize : (s.decls t).hasTypeSize = true)
    (hstatic : (s.decls t).isStatic = true)
    (hext : (s.decls t).isExternal = false)
    (hinit : (s.decls t).declInit = .initOf (.addrOfDecl t (s.decls t).declTy))
    (hcache : s.cache t =
      some (Const.globalRef gid (Ty.ptrTo (ConvertType (s.decls t).declTy))))
    (hfind : findSymbol s gid = some gv)
    (hkind : gv.kind = .gvarK)
    (helem : gv.elemTy = ConvertType (s.decls t).declTy) :
    ∃ s2, emit_global 1 s t = some s2 ∧
      ∃ g2, findSymbol s2 gid = some g2 ∧
        ∃ c, g2.initVal = some c ∧
          c.stripCasts =
            Const.globalRef gid (Ty.ptrTo (ConvertType (s.decls t).declTy)) ∧
          (∀ ty, c ≠ Const.undef ty) ∧ (∀ ty, c ≠ Const.zeroinit ty) := by
  have hsid : gv.sid = gid := findSymbol_sid s gid gv hfind
  -- the materializer returns the cached value, state unchanged
  have hmk : make_decl_llvm s t =
      (some (Const.globalRef gid (Ty.ptrTo (ConvertType (s.decls t).declTy))), s) := by
    unfold make_decl_llvm
    rw [hcache]
  -- the state with the undef placeholder installed
  have hS2cache : (updateSymbol s gid
      (fun g => { g with initVal := some (Const.undef g.elemTy) })).cache t =
      some (Const.globalRef gid (Ty.ptrTo (ConvertType (s.decls t).declTy))) := hcache
  have hmk2 : make_decl_llvm (updateSymbol s gid
      (fun g => { g with initVal := some (Const.undef g.elemTy) })) t =
      (some (Const.globalRef gid (Ty.ptrTo (ConvertType (s.decls t).declTy))),
       updateSymbol s gid
         (fun g => { g with initVal := some (Const.undef g.elemTy) })) := by
    unfold make_decl_llvm
    rw [hS2cache]
  have hfind2 : findSymbol (updateSymbol s gid
      (fun g => { g with initVal := some (Const.undef g.elemTy) })) gid =
      some { gv with initVal := some (Const.undef gv.elemTy) } := by
    rw [findSymbol_updateSymbol s gid
      (fun g => { g with initVal := some (Const.undef g.elemTy) })
      (fun g => rfl) gid, hfind]
    simp [hsid]
  -- the self-reference resolves through the placeholder, without recursion
  have hmdef : make_definition_llvmF (fun sx tx => emit_global 0 sx tx)
      (updateSymbol s gid
        (fun g => { g with initVal := some (Const.undef g.elemTy) })) t =
      some (Const.globalRef gid (Ty.ptrTo (ConvertType (s.decls t).declTy)),
        updateSymbol s gid
          (fun g => { g with initVal := some (Const.undef g.elemTy) })) := by
    have hd : (updateSymbol s gid
        (fun g => { g with initVal := some (Const.undef g.elemTy) })).decls t =
        s.decls t := rfl
    unfold make_definition_llvmF
    dsimp only
    rw [hd, hcode]
    unfold declLLVM
    rw [hmk2]
    simp [hext, hstatic, Const.constSid, hfind2]
  have hconv : convertInitializerF (fun sx tx => emit_global 0 sx tx)
      (updateSymbol s gid
        (fun g => { g with initVal := some (Const.undef g.elemTy) }))
      (InitExpr.addrOfDecl t (s.decls t).declTy) =
      some (createBitCast
          (Const.globalRef gid (Ty.ptrTo (ConvertType (s.decls t).declTy)))
          (s.decls t).declTy,
        updateSymbol s gid
          (fun g => { g with initVal := some (Const.undef g.elemTy) })) := by
    unfold convertInitializerF
    dsimp only
    rw [hmdef]
    rfl
  -- side conditions for the guards of emit_global
  have hc1 : ¬((s.decls t).code = TreeCode.varDeclC ∧
      (s.decls t).isRegister = true) := by simp [hreg]
  have hc2 : ¬(¬(s.decls t).hasTypeSize = true) := by simp [hsize]
  have hc3 : ¬(gv.kind ≠ SymKind.gvarK) := by simp [hkind]
  have hrun : emit_global 1 s t = some (emit_global_finish
      (updateSymbol s gid
        (fun g => { g with initVal := some (Const.undef g.elemTy) }))
      t gid (s.decls t)
      { gv with initVal := some (Const.undef gv.elemTy) }
      (createBitCast
        (Const.globalRef gid (Ty.ptrTo (ConvertType (s.decls t).declTy)))
        (s.decls t).declTy)) := by
    unfold emit_global
    dsimp only
    rw [if_neg hc1, if_neg hc2]
    unfold declLLVM
    rw [hmk]
    dsimp only [Option.bind, Const.constSid]
    rw [hfind]
    dsimp only [Option.bind]
    rw [if_neg hc3]
    rw [hinit]
    dsimp only
    rw [hconv]
    dsimp only [Option.bind]
    rw [hfind2]
    dsimp only [Option.bind]
    rw [if_neg (show ¬(gv.elemTy ≠
      (createBitCast (Const.globalRef gid (Ty.ptrTo (ConvertType (s.decls t).declTy)))
        (s.decls t).declTy).typeOf) by
      simp [createBitCast_typeOf, helem, ConvertType])]
    dsimp only
    rw [hfind2]
  obtain ⟨g2, hg2, hiv⟩ := emit_global_finish_initVal
    (updateSymbol s gid
      (fun g => { g with initVal := some (Const.undef g.elemTy) }))
    t gid (s.decls t)
    { gv with initVal := some (Const.undef gv.elemTy) }
    (createBitCast
      (Const.globalRef gid (Ty.ptrTo (ConvertType (s.decls t).declTy)))
      (s.decls t).declTy)
    { gv with initVal := some (Const.undef gv.elemTy) } hfind2
  refine ⟨_, hrun, g2, hg2,
    createBitCast
      (Const.globalRef gid (Ty.ptrTo (ConvertType (s.decls t).declTy)))
      (s.decls t).declTy, hiv, ?_, ?_, ?_⟩
  · unfold createBitCast
    split <;> rfl
  · intro ty
    unfold createBitCast
    split <;> simp
  · intro ty
    unfold createBitCast
    split <;> simp

/-- The symbol of the self-referential global `void *G = &G;`. -/
def c3GV : Symbol :=
  { sid := 0, name := "G", kind := .gvarK, elemTy := Ty.ptrTo Ty.voidTy,
    linkage := .externalL, visibility := .defaultVis, isConstant := false,
    threadLocal := false, initVal := none, symSection := none, align := 0,
    aliaseeSid := none, thunkDescr := none }

/-- A unit holding the declaration `void *G = &G;`, already materialized as
the uninitialized global 0. -/
def c3State : CompState :=
  { emptyState with
    decls := fun _ =>
      { declDefault with
        assemblerName := "G", isPublic := true,
        declTy := Ty.ptrTo Ty.voidTy,
        declInit := DeclInitial.initOf
          (InitExpr.addrOfDecl 0 (Ty.ptrTo Ty.voidTy)) },
    symbols := [c3GV],
    nextId := 1,
    cache := fun t =>
      if t = 0 then
        some (Const.globalRef 0 (Ty.ptrTo (Ty.ptrTo Ty.voidTy)))
      else none }

/-- Witness for C3: emitting `void *G = &G;` with fuel 1. -/
theorem c3_self_reference_guard_witness :
    ∃ s2, emit_global 1 c3State 0 = some s2 ∧
      ∃ g2, findSymbol s2 0 = some g2 ∧
        ∃ c, g2.initVal = some c ∧
          c.stripCasts =
            Const.globalRef 0 (Ty.ptrTo (ConvertType (c3State.decls 0).declTy)) ∧
          (∀ ty, c ≠ Const.undef ty) ∧ (∀ ty, c ≠ Const.zeroinit ty) :=
  c3_self_reference_guard c3State 0 0 c3GV rfl rfl rfl rfl rfl rfl rfl rfl rfl rfl

theorem symbols_keep_updateSymbol (s : CompState) (x : Nat) (f : Symbol → Symbol)
    (a : Symbol) (ha : a ∈ s.symbols) (hne : a.sid ≠ x) :
    a ∈ (updateSymbol s x f).symbols := by
  unfold updateSymbol
  have := List.mem_map_of_mem (fun g => if g.sid = x then f g else g) ha
  simpa [hne] using this

theorem symbols_keep_replaceAllUses (s : CompState) (o : Nat) (rep : Const)
    (a : Symbol) (ha : a ∈ s.symbols) :
    { a with initVal := a.initVal.map (Const.replaceRef o rep) } ∈
      (replaceAllUsesWith s o rep).symbols := by
  unfold replaceAllUsesWith
  exact List.mem_map_of_mem _ ha

theorem find?_append_right (l1 l2 : List Symbol) (p : Symbol → Bool)
    (h : ∀ g ∈ l1, ¬ p g = true) : (l1 ++ l2).find? p = l2.find? p := by
  induction l1 with
  | nil => rfl
  | cons a l ih =>
    rw [List.cons_append, List.find?_cons]
    have ha : p a = false := by
      have := h a (by simp)
      simpa using this
    rw [ha]
    exact ih (fun g hg => h g (by simp [hg]))

theorem findSymbol_addSymbol (s : CompState) (k : SymKind) (ty : Ty)
    (c : Bool) (lk : Linkage) (iv : Option Const) (nm : String)
    (hfresh : ∀ g ∈ s.symbols, g.sid < s.nextId) :
    findSymbol (addSymbol s k ty c lk iv nm).2 (addSymbol s k ty c lk iv nm).1.sid =
      some (addSymbol s k ty c lk iv nm).1 := by
  unfold addSymbol findSymbol
  dsimp only
  rw [find?_append_right]
  · simp [List.find?]
  · intro g hg
    have := hfresh g hg
    simp
    omega

theorem emitAliasTail_keeps (s : CompState) (t : Nat) (d : Decl) (vid : Nat)
    (vSym : Symbol) (asid : Nat) (aliasee : Symbol)
    (hfa : findSymbol s asid = some aliasee)
    (a : Symbol) (ha : a ∈ s.symbols) (hAvid : a.sid ≠ vid)
    (hAnext : a.sid ≠ s.nextId) :
    ∃ s2, emitAliasTail s t d vid vSym asid = some s2 ∧
      s2.errorcount = s.errorcount ∧
      ∃ g2 ∈ s2.symbols, g2.sid = a.sid ∧ g2.name = a.name ∧
        g2.linkage = a.linkage ∧ g2.kind = a.kind := by
  unfold emitAliasTail
  rw [hfa]
  dsimp only [Option.bind]
  split
  · -- non-internal linkage: a proper GlobalAlias is created
    refine ⟨_, rfl, rfl, ?_⟩
    have h1 : a ∈ ((addSymbol s .aliasK aliasee.elemTy false
        (GetLinkageForAlias s.flagOdr d) none "").2).symbols := by
      unfold addSymbol
      exact List.mem_append_left _ ha
    have h2 := symbols_keep_updateSymbol
      (addSymbol s .aliasK aliasee.elemTy false
        (GetLinkageForAlias s.flagOdr d) none "").2
      (addSymbol s .aliasK aliasee.elemTy false
        (GetLinkageForAlias s.flagOdr d) none "").1.sid
      (fun g => handleVisibility d { g with aliaseeSid := some asid }) a h1
      (by
        show a.sid ≠ s.nextId
        exact hAnext)
    have h3 := symbols_keep_replaceAllUses _ vid
      (createBitCast (addSymbol s .aliasK aliasee.elemTy false
        (GetLinkageForAlias s.flagOdr d) none "").1.refC
        (Ty.ptrTo vSym.elemTy)) a h2
    have h4 := symbols_keep_updateSymbol _
      (addSymbol s .aliasK aliasee.elemTy false
        (GetLinkageForAlias s.flagOdr d) none "").1.sid
      (fun g => { g with name := vSym.name })
      { a with initVal := a.initVal.map (Const.replaceRef vid
        (createBitCast (addSymbol s .aliasK aliasee.elemTy false
          (GetLinkageForAlias s.flagOdr d) none "").1.refC
          (Ty.ptrTo vSym.elemTy))) } h3
      (by
        show a.sid ≠ s.nextId
        exact hAnext)
    refine ⟨{ a with initVal := a.initVal.map (Const.replaceRef vid
      (createBitCast (addSymbol s .aliasK aliasee.elemTy false
        (GetLinkageForAlias s.flagOdr d) none "").1.refC
        (Ty.ptrTo vSym.elemTy))) }, ?_, rfl, rfl, rfl, rfl⟩
    dsimp only [markAsmWritten]
    rw [List.mem_filter]
    exact ⟨h4, by simpa using hAvid⟩
  · -- internal linkage: users redirected to the aliasee directly
    refine ⟨_, rfl, rfl, ?_⟩
    have h3 := symbols_keep_replaceAllUses s vid
      (createBitCast aliasee.refC (Ty.ptrTo vSym.elemTy)) a ha
    refine ⟨{ a with initVal := a.initVal.map (Const.replaceRef vid
      (createBitCast aliasee.refC (Ty.ptrTo vSym.elemTy))) }, ?_, rfl, rfl, rfl, rfl⟩
    dsimp only [markAsmWritten]
    rw [List.mem_filter]
    exact ⟨h3, by simpa using hAvid⟩

/-- **C5.** For an alias whose target resolves to an identifier never
defined in the unit: with the weakref attribute, `emit_alias` succeeds
without reporting anything and synthesizes a target symbol of that name
with external-weak linkage — a `GlobalVariable` when the placeholder is a
variable, a `Function` (`Function::Create`, lines 1838-1842) when it is a
function, the only two kinds the materializer creates; without weakref,
`emit_alias` reports the "aliased to undefined symbol" error and returns —
the module is unchanged and no alias symbol is created. -/
theorem c5_alias_undefined_target (fuel : Nat) (s : CompState) (t vid : Nat)
    (vSym : Symbol) (nm : String) (chain : List String)
    (herr : ¬ hasErrors s)
    (hcache : s.cache t = some (Const.globalRef vid (Ty.ptrTo vSym.elemTy)))
    (hfind : findSymbol s vid = some vSym)
    (hkindV : vSym.kind = .gvarK ∨ vSym.kind = .funcK)
    (hcg : s.cgraphForAsm (followTransparent nm chain) = none)
    (hvp : s.varpoolForAsm (followTransparent nm chain) = none)
    (hcg2 : s.cgraphForAsm nm = none)
    (hvp2 : s.varpoolForAsm nm = none)
    (hfresh : ∀ g ∈ s.symbols, g.sid < s.nextId)
    (hname : moduleHasName s (followTransparent nm chain) = false) :
    ((s.decls t).hasWeakrefAttr = true →
      ∃ s2, emit_alias fuel s t (AliasTarget.identNode nm chain) = some s2 ∧
        s2.errorcount = s.errorcount ∧
        ∃ g ∈ s2.symbols, g.name = followTransparent nm chain ∧
          g.linkage = Linkage.externalWeakL ∧ g.kind = vSym.kind) ∧
    ((s.decls t).hasWeakrefAttr = false →
      emit_alias fuel s t (AliasTarget.identNode nm chain) =
        some (reportError s "decl aliased to undefined symbol") ∧
      (reportError s "decl aliased to undefined symbol").symbols = s.symbols ∧
      (reportError s "decl aliased to undefined symbol").errorcount =
        s.errorcount + 1) := by
  have hmk : make_decl_llvm s t =
      (some (Const.globalRef vid (Ty.ptrTo vSym.elemTy)), s) := by
    unfold make_decl_llvm
    rw [hcache]
  have hvidlt : vid < s.nextId := by
    have hmem := List.mem_of_find?_eq_some hfind
    have := hfresh vSym hmem
    rw [findSymbol_sid s vid vSym hfind] at this
    exact this
  constructor
  · intro hw
    unfold emit_alias
    rw [if_neg herr]
    unfold declLLVM
    rw [hmk]
    dsimp only [Option.bind, Const.constSid]
    rw [hfind]
    dsimp only [Option.bind]
    rw [hw]
    simp only [if_true]
    rw [hcg]
    try dsimp only
    rw [hvp]
    try dsimp only
    rcases hkindV with hk | hk
    · -- variable placeholder: a GlobalVariable target is synthesized
      rw [hk]
      try dsimp only
      have hkeep := emitAliasTail_keeps
        (addSymbol s .gvarK (Ty.ptrTo vSym.elemTy) vSym.isConstant
          .externalWeakL none (followTransparent nm chain)).2
        t (s.decls t) vid vSym
        (addSymbol s .gvarK (Ty.ptrTo vSym.elemTy) vSym.isConstant
          .externalWeakL none (followTransparent nm chain)).1.sid
        (addSymbol s .gvarK (Ty.ptrTo vSym.elemTy) vSym.isConstant
          .externalWeakL none (followTransparent nm chain)).1
        (findSymbol_addSymbol s .gvarK (Ty.ptrTo vSym.elemTy) vSym.isConstant
          .externalWeakL none (followTransparent nm chain) hfresh)
        (addSymbol s .gvarK (Ty.ptrTo vSym.elemTy) vSym.isConstant
          .externalWeakL none (followTransparent nm chain)).1
        (by
          unfold addSymbol
          dsimp only
          exact List.mem_append_right _ (by simp))
        (by
          show s.nextId ≠ vid
          omega)
        (by
          show s.nextId ≠ s.nextId + 1
          omega)
      obtain ⟨s2, hs2, herrc, g2, hg2mem, hg2sid, hg2name, hg2lk, hg2k⟩ := hkeep
      refine ⟨s2, hs2, ?_, g2, hg2mem, ?_, ?_, ?_⟩
      · rw [herrc]
        rfl
      · rw [hg2name]
        show freshName s (followTransparent nm chain) = followTransparent nm chain
        unfold freshName
        rw [hname]
        simp
      · rw [hg2lk]
        rfl
      · rw [hg2k]
        rfl
    · -- function placeholder: Function::Create with ExternalWeakLinkage
      rw [hk]
      try dsimp only
      have hkeep := emitAliasTail_keeps
        (addSymbol s .funcK vSym.elemTy false
          .externalWeakL none (followTransparent nm chain)).2
        t (s.decls t) vid vSym
        (addSymbol s .funcK vSym.elemTy false
          .externalWeakL none (followTransparent nm chain)).1.sid
        (addSymbol s .funcK vSym.elemTy false
          .externalWeakL none (followTransparent nm chain)).1
        (findSymbol_addSymbol s .funcK vSym.elemTy false
          .externalWeakL none (followTransparent nm chain) hfresh)
        (addSymbol s .funcK vSym.elemTy false
          .externalWeakL none (followTransparent nm chain)).1
        (by
          unfold addSymbol
          dsimp only
          exact List.mem_append_right _ (by simp))
        (by
          show s.nextId ≠ vid
          omega)
        (by
          show s.nextId ≠ s.nextId + 1
          omega)
      obtain ⟨s2, hs2, herrc, g2, hg2mem, hg2sid, hg2name, hg2lk, hg2k⟩ := hkeep
      refine ⟨s2, hs2, ?_, g2, hg2mem, ?_, ?_, ?_⟩
      · rw [herrc]
        rfl
      · rw [hg2name]
        show freshName s (followTransparent nm chain) = followTransparent nm chain
        unfold freshName
        rw [hname]
        simp
      · rw [hg2lk]
        rfl
      · rw [hg2k]
        rfl
  · intro hw
    unfold emit_alias
    rw [if_neg herr]
    unfold declLLVM
    rw [hmk]
    dsimp only [Option.bind, Const.constSid]
    rw [hfind]
    dsimp only [Option.bind]
    rw [hw]
    simp only [Bool.false_eq_true, if_false]
    rw [hcg2]
    try dsimp only
    rw [hvp2]
    try dsimp only
    simp only [not_false_iff, Bool.false_eq_true, if_true]
    try dsimp only
    exact ⟨trivial, rfl, rfl⟩

/-- The placeholder symbol of the alias declaration used by the C5
witness. -/
def c5VSym : Symbol :=
  { sid := 7, name := "A", kind := .gvarK, elemTy := Ty.intTy 32,
    linkage := .externalL, visibility := .defaultVis, isConstant := false,
    threadLocal := false, initVal := none, symSection := none, align := 0,
    aliaseeSid := none, thunkDescr := none }

/-- A unit with a weakref alias declaration 0 (placeholder global 7) whose
target "tgt" is never defined. -/
def c5StateW : CompState :=
  { emptyState with
    decls := fun _ =>
      { declDefault with assemblerName := "A", hasWeakrefAttr := true },
    symbols := [c5VSym],
    nextId := 8,
    cache := fun t =>
      if t = 0 then some (Const.globalRef 7 (Ty.ptrTo (Ty.intTy 32))) else none }

/-- The same unit with the alias declaration not carrying weakref. -/
def c5StateN : CompState :=
  { emptyState with
    decls := fun _ => { declDefault with assemblerName := "A" },
    symbols := [c5VSym],
    nextId := 8,
    cache := fun t =>
      if t = 0 then some (Const.globalRef 7 (Ty.ptrTo (Ty.intTy 32))) else none }

/-- A function placeholder for a weakref function alias declaration. -/
def c5FSym : Symbol :=
  { sid := 7, name := "F", kind := .funcK, elemTy := Ty.funcTy false,
    linkage := .externalL, visibility := .defaultVis, isConstant := false,
    threadLocal := false, initVal := none, symSection := none, align := 0,
    aliaseeSid := none, thunkDescr := none }

/-- A unit with a weakref alias declaration whose placeholder is the
function `c5FSym` and whose target "tgt" is never defined. -/
def c5StateF : CompState :=
  { emptyState with
    decls := fun _ =>
      { declDefault with assemblerName := "F", hasWeakrefAttr := true },
    symbols := [c5FSym],
    nextId := 8,
    cache := fun t =>
      if t = 0 then some (Const.globalRef 7 (Ty.ptrTo (Ty.funcTy false)))
      else none }

/-- Witness for C5: the weakref case succeeds and synthesizes an
external-weak "tgt" — a global variable for a variable alias, a function for
a function alias; the non-weakref case reports the error and leaves the
module unchanged. -/
theorem c5_alias_undefined_target_witness :
    (∃ s2, emit_alias 1 c5StateW 0 (AliasTarget.identNode "tgt" []) = some s2 ∧
      s2.errorcount = c5StateW.errorcount ∧
      ∃ g ∈ s2.symbols, g.name = followTransparent "tgt" [] ∧
        g.linkage = Linkage.externalWeakL ∧ g.kind = c5VSym.kind) ∧
    (∃ s2, emit_alias 1 c5StateF 0 (AliasTarget.identNode "tgt" []) = some s2 ∧
      s2.errorcount = c5StateF.errorcount ∧
      ∃ g ∈ s2.symbols, g.name = followTransparent "tgt" [] ∧
        g.linkage = Linkage.externalWeakL ∧ g.kind = c5FSym.kind) ∧
    (emit_alias 1 c5StateN 0 (AliasTarget.identNode "tgt" []) =
      some (reportError c5StateN "decl aliased to undefined symbol") ∧
      (reportError c5StateN "decl aliased to undefined symbol").symbols =
        c5StateN.symbols ∧
      (reportError c5StateN "decl aliased to undefined symbol").errorcount =
        c5StateN.errorcount + 1) := by
  refine ⟨?_, ?_, ?_⟩
  · exact (c5_alias_undefined_target 1 c5StateW 0 7 c5VSym "tgt" []
      (by simp [hasErrors, c5StateW, emptyState]) rfl rfl (Or.inl rfl) rfl rfl
      rfl rfl (by decide) rfl).1 rfl
  · exact (c5_alias_undefined_target 1 c5StateF 0 7 c5FSym "tgt" []
      (by simp [hasErrors, c5StateF, emptyState]) rfl rfl (Or.inr rfl) rfl rfl
      rfl rfl (by decide) rfl).1 rfl
  · exact (c5_alias_undefined_target 1 c5StateN 0 7 c5VSym "tgt" []
      (by simp [hasErrors, c5StateN, emptyState]) rfl rfl (Or.inl rfl) rfl rfl
      rfl rfl (by decide) rfl).2 rfl

end Dragonegg

namespace Dragonegg

theorem refsGlobal_replaceRef (g0 : Nat) (rep : Const) (c : Const)
    (h : rep.refsGlobal g0 = false) :
    (Const.replaceRef g0 rep c).refsGlobal g0 = false := by
  induction c with
  | undef ty => rfl
  | zeroinit ty => rfl
  | intC n ty => rfl
  | globalRef sid ty =>
    unfold Const.replaceRef
    split
    · exact h
    · simpa [Const.refsGlobal] using (by
        rename_i hne
        simpa using hne)
  | bitcast c ty ih =>
    unfold Const.replaceRef Const.refsGlobal
    exact ih

theorem refsGlobal_createBitCast (c : Const) (ty : Ty) (g : Nat) :
    (createBitCast c ty).refsGlobal g = c.refsGlobal g := by
  unfold createBitCast
  split
  · rfl
  · rfl

theorem refsGlobal_globalRef (a : Nat) (b : Ty) (g : Nat) (h : a ≠ g) :
    (Const.globalRef a b).refsGlobal g = false := by
  simp [Const.refsGlobal, h]

theorem setVector_swap_no_refs (u : List Const) (oldC newC : Const) (g0 : Nat)
    (hu : ∀ c ∈ u, c.refsGlobal g0 = true → c = oldC)
    (hn : newC.refsGlobal g0 = false) :
    (∀ c ∈ (if oldC ∈ u then
        setVectorInsert (setVectorRemove u oldC) newC else u),
      c.refsGlobal g0 = false) ∧
    (oldC ∈ u → newC ∈ (if oldC ∈ u then
        setVectorInsert (setVectorRemove u oldC) newC else u)) := by
  constructor
  · intro c hc
    split at hc
    · unfold setVectorInsert at hc
      split at hc
      · rw [setVectorRemove, List.mem_filter] at hc
        rcases Bool.eq_false_or_eq_true (c.refsGlobal g0) with h | h
        · exact absurd (hu c hc.1 h) (by simpa using hc.2)
        · exact h
      · rcases List.mem_append.1 hc with h1 | h1
        · rw [setVectorRemove, List.mem_filter] at h1
          rcases Bool.eq_false_or_eq_true (c.refsGlobal g0) with h | h
          · exact absurd (hu c h1.1 h) (by simpa using h1.2)
          · exact h
        · rw [List.mem_singleton] at h1
          rw [h1]
          exact hn
    · rcases Bool.eq_false_or_eq_true (c.refsGlobal g0) with h | h
      · rename_i hnotin
        exact absurd (hu c hc h ▸ hc) hnotin
      · exact h
  · intro hin
    rw [if_pos hin]
    unfold setVectorInsert
    split
    · assumption
    · exact List.mem_append_right _ (by simp)

theorem ctor_swap_no_refs (l : List (Const × Int)) (oldC newC : Const) (g0 : Nat)
    (hl : ∀ p ∈ l, p.1.refsGlobal g0 = true → p.1 = oldC)
    (hn : newC.refsGlobal g0 = false) :
    ∀ p ∈ l.map (fun p => if p.1 = oldC then (newC, p.2) else p),
      p.1.refsGlobal g0 = false := by
  intro p hp
  rcases List.mem_map.1 hp with ⟨q, hq, hqe⟩
  by_cases he : q.1 = oldC
  · rw [if_pos he] at hqe
    rw [← hqe]
    exact hn
  · rw [if_neg he] at hqe
    rw [← hqe]
    rcases Bool.eq_false_or_eq_true (q.1.refsGlobal g0) with h | h
    · exact absurd (hl q hq h) he
    · exact h

theorem c1aux_repair (s : CompState) (t gid : Nat) (gv : Symbol) (initC : Const)
    (hfind : findSymbol s gid = some gv)
    (hfresh : ∀ g ∈ s.symbols, g.sid < s.nextId)
    (hused : ∀ c ∈ s.attributeUsedGlobals, c.refsGlobal gid = true → c = gv.refC)
    (hcused : ∀ c ∈ s.attributeCompilerUsedGlobals,
      c.refsGlobal gid = true → c = gv.refC)
    (hctors : ∀ p ∈ s.staticCtors, p.1.refsGlobal gid = true → p.1 = gv.refC)
    (hdtors : ∀ p ∈ s.staticDtors, p.1.refsGlobal gid = true → p.1 = gv.refC) :
    (repairGlobalForInit s t gid gv initC).1 = s.nextId ∧
    (∀ g ∈ (repairGlobalForInit s t gid gv initC).2.symbols, g.sid ≠ gid) ∧
    (∃ g ∈ (repairGlobalForInit s t gid gv initC).2.symbols,
      g.sid = s.nextId ∧ g.elemTy = initC.typeOf) ∧
    (∀ g ∈ (repairGlobalForInit s t gid gv initC).2.symbols,
      ∀ c, g.initVal = some c → c.refsGlobal gid = false) ∧
    (∀ g ∈ s.symbols, g.sid ≠ gid →
      ∃ g2 ∈ (repairGlobalForInit s t gid gv initC).2.symbols,
        g2.sid = g.sid ∧ g2.initVal = g.initVal.map (Const.replaceRef gid
          (createBitCast (Const.globalRef s.nextId (Ty.ptrTo initC.typeOf))
            (Ty.ptrTo gv.elemTy)))) ∧
    (∀ c ∈ (repairGlobalForInit s t gid gv initC).2.attributeUsedGlobals,
      c.refsGlobal gid = false) ∧
    (gv.refC ∈ s.attributeUsedGlobals →
      Const.globalRef s.nextId (Ty.ptrTo initC.typeOf) ∈
        (repairGlobalForInit s t gid gv initC).2.attributeUsedGlobals) ∧
    (∀ c ∈ (repairGlobalForInit s t gid gv initC).2.attributeCompilerUsedGlobals,
      c.refsGlobal gid = false) ∧
    (gv.refC ∈ s.attributeCompilerUsedGlobals →
      Const.globalRef s.nextId (Ty.ptrTo initC.typeOf) ∈
        (repairGlobalForInit s t gid gv initC).2.attributeCompilerUsedGlobals) ∧
    ((repairGlobalForInit s t gid gv initC).2.staticCtors =
      s.staticCtors.map (fun p => if p.1 = gv.refC then
        (Const.globalRef s.nextId (Ty.ptrTo initC.typeOf), p.2) else p)) ∧
    (∀ p ∈ (repairGlobalForInit s t gid gv initC).2.staticCtors,
      p.1.refsGlobal gid = false) ∧
    ((repairGlobalForInit s t gid gv initC).2.staticDtors =
      s.staticDtors.map (fun p => if p.1 = gv.refC then
        (Const.globalRef s.nextId (Ty.ptrTo initC.typeOf), p.2) else p)) ∧
    (∀ p ∈ (repairGlobalForInit s t gid gv initC).2.staticDtors,
      p.1.refsGlobal gid = false) ∧
    (∀ dId c, (repairGlobalForInit s t gid gv initC).2.cache dId = some c →
      c.refsGlobal gid = false) ∧
    ((repairGlobalForInit s t gid gv initC).2.cache t =
      some (Const.globalRef s.nextId (Ty.ptrTo initC.typeOf))) := by
  have hsid : gv.sid = gid := findSymbol_sid s gid gv hfind
  have hgidlt : gid < s.nextId := by
    have hmem := List.mem_of_find?_eq_some hfind
    have := hfresh gv hmem
    omega
  have hnref : (Const.globalRef s.nextId (Ty.ptrTo initC.typeOf)).refsGlobal gid
      = false := refsGlobal_globalRef _ _ _ (by omega)
  have hcast : (createBitCast (Const.globalRef s.nextId (Ty.ptrTo initC.typeOf))
      (Ty.ptrTo gv.elemTy)).refsGlobal gid = false := by
    rw [refsGlobal_createBitCast]
    exact hnref
  have hsym : (repairGlobalForInit s t gid gv initC).2.symbols =
      ((s.symbols.filter (fun g => g.sid ≠ gid)) ++
        [(addSymbol { s with symbols := s.symbols.filter (fun g => g.sid ≠ gid) }
          .gvarK initC.typeOf gv.isConstant .externalL none gv.name).1]).map
        (fun g => { g with initVal := g.initVal.map (Const.replaceRef gid
          (createBitCast (Const.globalRef s.nextId (Ty.ptrTo initC.typeOf))
            (Ty.ptrTo gv.elemTy))) }) := rfl
  have husedEq : (repairGlobalForInit s t gid gv initC).2.attributeUsedGlobals =
      (if gv.refC ∈ s.attributeUsedGlobals then
        setVectorInsert (setVectorRemove s.attributeUsedGlobals gv.refC)
          (Const.globalRef s.nextId (Ty.ptrTo initC.typeOf))
      else s.attributeUsedGlobals) := rfl
  have hcusedEq :
      (repairGlobalForInit s t gid gv initC).2.attributeCompilerUsedGlobals =
      (if gv.refC ∈ s.attributeCompilerUsedGlobals then
        setVectorInsert (setVectorRemove s.attributeCompilerUsedGlobals gv.refC)
          (Const.globalRef s.nextId (Ty.ptrTo initC.typeOf))
      else s.attributeCompilerUsedGlobals) := rfl
  have hctorEq : (repairGlobalForInit s t gid gv initC).2.staticCtors =
      s.staticCtors.map (fun p => if p.1 = gv.refC then
        (Const.globalRef s.nextId (Ty.ptrTo initC.typeOf), p.2) else p) := rfl
  have hdtorEq : (repairGlobalForInit s t gid gv initC).2.staticDtors =
      s.staticDtors.map (fun p => if p.1 = gv.refC then
        (Const.globalRef s.nextId (Ty.ptrTo initC.typeOf), p.2) else p) := rfl
  have hcacheEq : (repairGlobalForInit s t gid gv initC).2.cache =
      (fun dId => if dId = t then
        some (Const.globalRef s.nextId (Ty.ptrTo initC.typeOf))
      else (s.cache dId).map (Const.replaceRef gv.sid
        (Const.globalRef s.nextId (Ty.ptrTo initC.typeOf)))) := rfl
  have hUsed := setVector_swap_no_refs s.attributeUsedGlobals gv.refC
    (Const.globalRef s.nextId (Ty.ptrTo initC.typeOf)) gid hused hnref
  have hCUsed := setVector_swap_no_refs s.attributeCompilerUsedGlobals gv.refC
    (Const.globalRef s.nextId (Ty.ptrTo initC.typeOf)) gid hcused hnref
  refine ⟨rfl, ?_, ?_, ?_, ?_, ?_, ?_, ?_, ?_, hctorEq, ?_, hdtorEq, ?_, ?_, ?_⟩
  · -- the old symbol is gone from the module
    intro g hg
    rw [hsym] at hg
    rcases List.mem_map.1 hg with ⟨b, hb, hbe⟩
    rcases List.mem_append.1 hb with h1 | h1
    · rw [List.mem_filter] at h1
      rw [← hbe]
      simpa using h1.2
    · rw [List.mem_singleton] at h1
      rw [← hbe, h1]
      show s.nextId ≠ gid
      omega
  · -- the new symbol is in the module
    have hm : ((addSymbol { s with
        symbols := s.symbols.filter (fun g => g.sid ≠ gid) }
        .gvarK initC.typeOf gv.isConstant .externalL none gv.name).1) ∈
        ((s.symbols.filter (fun g => g.sid ≠ gid)) ++
          [(addSymbol { s with symbols := s.symbols.filter (fun g => g.sid ≠ gid) }
            .gvarK initC.typeOf gv.isConstant .externalL none gv.name).1]) :=
      List.mem_append_right _ (by simp)
    rw [hsym]
    exact ⟨_, List.mem_map_of_mem _ hm, rfl, rfl⟩
  · -- no initializer references the old symbol
    intro g hg c hc
    rw [hsym] at hg
    rcases List.mem_map.1 hg with ⟨b, hb, hbe⟩
    rw [← hbe] at hc
    dsimp only at hc
    rcases Option.map_eq_some'.1 hc with ⟨c0, hc0, hc0e⟩
    rw [← hc0e]
    exact refsGlobal_replaceRef gid _ c0 hcast
  · -- every surviving use is redirected through the cast of the new symbol
    intro g hg hne
    rw [hsym]
    refine ⟨_, List.mem_map_of_mem _ (List.mem_append_left _ ?_), rfl, rfl⟩
    rw [List.mem_filter]
    exact ⟨hg, by simpa using hne⟩
  · rw [husedEq]
    exact hUsed.1
  · intro hin
    rw [husedEq]
    exact hUsed.2 hin
  · rw [hcusedEq]
    exact hCUsed.1
  · intro hin
    rw [hcusedEq]
    exact hCUsed.2 hin
  · rw [hctorEq]
    exact ctor_swap_no_refs s.staticCtors gv.refC _ gid hctors hnref
  · rw [hdtorEq]
    exact ctor_swap_no_refs s.staticDtors gv.refC _ gid hdtors hnref
  · intro dId c hc
    rw [hcacheEq] at hc
    dsimp only at hc
    split at hc
    · rw [Option.some.injEq] at hc
      rw [← hc]
      exact hnref
    · rcases Option.map_eq_some'.1 hc with ⟨c0, hc0, hc0e⟩
      rw [← hc0e, hsid]
      exact refsGlobal_replaceRef gid _ c0 hnref
  · rw [hcacheEq]
    simp

theorem c1aux_collision (s : CompState) (newSid oldSid : Nat)
    (newG oldG : Symbol)
    (hfindN : findSymbol s newSid = some newG)
    (hfindO : findSymbol s oldSid = some oldG)
    (hne : newSid ≠ oldSid)
    (hused : ∀ c ∈ s.attributeUsedGlobals,
      c.refsGlobal oldSid = true → c = oldG.refC)
    (hcused : ∀ c ∈ s.attributeCompilerUsedGlobals,
      c.refsGlobal oldSid = true → c = oldG.refC)
    (hctors : ∀ p ∈ s.staticCtors, p.1.refsGlobal oldSid = true → p.1 = oldG.refC)
    (hdtors : ∀ p ∈ s.staticDtors, p.1.refsGlobal oldSid = true → p.1 = oldG.refC) :
    (∀ g ∈ (resolveNameCollision s newSid oldSid).symbols, g.sid ≠ oldSid) ∧
    (∃ g ∈ (resolveNameCollision s newSid oldSid).symbols,
      g.sid = newSid ∧ g.name = oldG.name) ∧
    (∀ g ∈ (resolveNameCollision s newSid oldSid).symbols,
      ∀ c, g.initVal = some c → c.refsGlobal oldSid = false) ∧
    (∀ g ∈ s.symbols, g.sid ≠ oldSid →
      ∃ g2 ∈ (resolveNameCollision s newSid oldSid).symbols,
        g2.sid = g.sid ∧ g2.initVal = g.initVal.map (Const.replaceRef oldSid
          (createBitCast newG.refC (Ty.ptrTo oldG.elemTy)))) ∧
    (∀ c ∈ (resolveNameCollision s newSid oldSid).attributeUsedGlobals,
      c.refsGlobal oldSid = false) ∧
    (oldG.refC ∈ s.attributeUsedGlobals →
      createBitCast newG.refC (Ty.ptrTo oldG.elemTy) ∈
        (resolveNameCollision s newSid oldSid).attributeUsedGlobals) ∧
    (∀ c ∈ (resolveNameCollision s newSid oldSid).attributeCompilerUsedGlobals,
      c.refsGlobal oldSid = false) ∧
    (oldG.refC ∈ s.attributeCompilerUsedGlobals →
      createBitCast newG.refC (Ty.ptrTo oldG.elemTy) ∈
        (resolveNameCollision s newSid oldSid).attributeCompilerUsedGlobals) ∧
    ((resolveNameCollision s newSid oldSid).staticCtors =
      s.staticCtors.map (fun p => if p.1 = oldG.refC then
        (createBitCast newG.refC (Ty.ptrTo oldG.elemTy), p.2) else p)) ∧
    (∀ p ∈ (resolveNameCollision s newSid oldSid).staticCtors,
      p.1.refsGlobal oldSid = false) ∧
    ((resolveNameCollision s newSid oldSid).staticDtors =
      s.staticDtors.map (fun p => if p.1 = oldG.refC then
        (createBitCast newG.refC (Ty.ptrTo oldG.elemTy), p.2) else p)) ∧
    (∀ p ∈ (resolveNameCollision s newSid oldSid).staticDtors,
      p.1.refsGlobal oldSid = false) ∧
    (∀ dId c, (resolveNameCollision s newSid oldSid).cache dId = some c →
      c.refsGlobal oldSid = false) := by
  have hsidN : newG.sid = newSid := findSymbol_sid s newSid newG hfindN
  have hsidO : oldG.sid = oldSid := findSymbol_sid s oldSid oldG hfindO
  have hcast : (createBitCast newG.refC (Ty.ptrTo oldG.elemTy)).refsGlobal oldSid
      = false := by
    rw [refsGlobal_createBitCast]
    show (Const.globalRef newG.sid (Ty.ptrTo newG.elemTy)).refsGlobal oldSid
      = false
    rw [hsidN]
    exact refsGlobal_globalRef _ _ _ hne
  have hres : resolveNameCollision s newSid oldSid =
      (let castC := createBitCast newG.refC (Ty.ptrTo oldG.elemTy)
       let s1 := replaceAllUsesWith s oldSid castC
       let s2 := changeLLVMConstant s1 oldG.refC castC
       let s3 := updateSymbol s2 newSid (fun g => { g with name := oldG.name })
       { s3 with symbols := s3.symbols.filter (fun g => g.sid ≠ oldSid) }) := by
    unfold resolveNameCollision
    rw [hfindN, hfindO]
  have hsym : (resolveNameCollision s newSid oldSid).symbols =
      List.filter (fun g => g.sid ≠ oldSid)
        ((s.symbols.map (fun g => { g with initVal := g.initVal.map (Const.replaceRef
          oldSid (createBitCast newG.refC (Ty.ptrTo oldG.elemTy))) })).map
        (fun g => if g.sid = newSid then { g with name := oldG.name } else g)) := by
    rw [hres]
    rfl
  have husedEq : (resolveNameCollision s newSid oldSid).attributeUsedGlobals =
      (if oldG.refC ∈ s.attributeUsedGlobals then
        setVectorInsert (setVectorRemove s.attributeUsedGlobals oldG.refC)
          (createBitCast newG.refC (Ty.ptrTo oldG.elemTy))
      else s.attributeUsedGlobals) := by
    rw [hres]
    rfl
  have hcusedEq :
      (resolveNameCollision s newSid oldSid).attributeCompilerUsedGlobals =
      (if oldG.refC ∈ s.attributeCompilerUsedGlobals then
        setVectorInsert (setVectorRemove s.attributeCompilerUsedGlobals oldG.refC)
          (createBitCast newG.refC (Ty.ptrTo oldG.elemTy))
      else s.attributeCompilerUsedGlobals) := by
    rw [hres]
    rfl
  have hctorEq : (resolveNameCollision s newSid oldSid).staticCtors =
      s.staticCtors.map (fun p => if p.1 = oldG.refC then
        (createBitCast newG.refC (Ty.ptrTo oldG.elemTy), p.2) else p) := by
    rw [hres]
    rfl
  have hdtorEq : (resolveNameCollision s newSid oldSid).staticDtors =
      s.staticDtors.map (fun p => if p.1 = oldG.refC then
        (createBitCast newG.refC (Ty.ptrTo oldG.elemTy), p.2) else p) := by
    rw [hres]
    rfl
  have hcacheEq : (resolveNameCollision s newSid oldSid).cache =
      (fun dId => (s.cache dId).map (Const.replaceRef oldG.sid
        (createBitCast newG.refC (Ty.ptrTo oldG.elemTy)))) := by
    rw [hres]
    rfl
  have hren_init : ∀ g : Symbol,
      (if g.sid = newSid then { g with name := oldG.name } else g).initVal
        = g.initVal := by
    intro g
    split <;> rfl
  have hren_sid : ∀ g : Symbol,
      (if g.sid = newSid then { g with name := oldG.name } else g).sid
        = g.sid := by
    intro g
    split <;> rfl
  have hUsed := setVector_swap_no_refs s.attributeUsedGlobals oldG.refC
    (createBitCast newG.refC (Ty.ptrTo oldG.elemTy)) oldSid hused hcast
  have hCUsed := setVector_swap_no_refs s.attributeCompilerUsedGlobals oldG.refC
    (createBitCast newG.refC (Ty.ptrTo oldG.elemTy)) oldSid hcused hcast
  refine ⟨?_, ?_, ?_, ?_, ?_, ?_, ?_, ?_, hctorEq, ?_, hdtorEq, ?_, ?_⟩
  · -- the old symbol is gone from the module
    intro g hg
    rw [hsym] at hg
    rw [List.mem_filter] at hg
    simpa using hg.2
  · -- the new symbol took the old one's name
    have hmemN := List.mem_of_find?_eq_some hfindN
    have hE : ((fun g => if g.sid = newSid then
          { g with name := oldG.name } else g)
        ((fun g => { g with initVal := g.initVal.map (Const.replaceRef oldSid
          (createBitCast newG.refC (Ty.ptrTo oldG.elemTy))) }) newG)) =
        { newG with
          name := oldG.name
          initVal := newG.initVal.map (Const.replaceRef oldSid
            (createBitCast newG.refC (Ty.ptrTo oldG.elemTy))) } := by
      dsimp only
      rw [if_pos hsidN]
    refine ⟨{ newG with
        name := oldG.name
        initVal := newG.initVal.map (Const.replaceRef oldSid
          (createBitCast newG.refC (Ty.ptrTo oldG.elemTy))) }, ?_, hsidN, rfl⟩
    rw [hsym, List.mem_filter]
    constructor
    · rw [← hE]
      exact List.mem_map_of_mem _ (List.mem_map_of_mem _ hmemN)
    · simp only [decide_eq_true_eq]
      show newG.sid ≠ oldSid
      rw [hsidN]
      exact hne
  · -- no initializer references the old symbol
    intro g hg c hc
    rw [hsym] at hg
    rw [List.mem_filter] at hg
    rcases List.mem_map.1 hg.1 with ⟨b, hb, hbe⟩
    rcases List.mem_map.1 hb with ⟨a, ha, hae⟩
    rw [← hbe, hren_init b, ← hae] at hc
    dsimp only at hc
    rcases Option.map_eq_some'.1 hc with ⟨c0, hc0, hc0e⟩
    rw [← hc0e]
    exact refsGlobal_replaceRef oldSid _ c0 hcast
  · -- every surviving use is redirected through the cast of the new symbol
    intro g hg hgo
    refine ⟨(fun g => if g.sid = newSid then { g with name := oldG.name } else g)
        ((fun g => { g with initVal := g.initVal.map (Const.replaceRef oldSid
          (createBitCast newG.refC (Ty.ptrTo oldG.elemTy))) }) g), ?_, ?_, ?_⟩
    · rw [hsym, List.mem_filter]
      refine ⟨List.mem_map_of_mem _ (List.mem_map_of_mem _ hg), ?_⟩
      simp only [decide_eq_true_eq]
      split
      · exact hgo
      · exact hgo
    · dsimp only
      split <;> rfl
    · dsimp only
      split <;> rfl
  · rw [husedEq]
    exact hUsed.1
  · intro hin
    rw [husedEq]
    exact hUsed.2 hin
  · rw [hcusedEq]
    exact hCUsed.1
  · intro hin
    rw [hcusedEq]
    exact hCUsed.2 hin
  · rw [hctorEq]
    exact ctor_swap_no_refs s.staticCtors oldG.refC _ oldSid hctors hcast
  · rw [hdtorEq]
    exact ctor_swap_no_refs s.staticDtors oldG.refC _ oldSid hdtors hcast
  · intro dId c hc
    rw [hcacheEq] at hc
    dsimp only at hc
    rcases Option.map_eq_some'.1 hc with ⟨c0, hc0, hc0e⟩
    rw [← hc0e, hsidO]
    exact refsGlobal_replaceRef oldSid _ c0 hcast

/-- Concrete forward-declared array `T arr[]` as an external global of the
element type, later completed to `T arr[100]`. -/
def c1WGv : Symbol :=
  { sid := 0, name := "arr", kind := .gvarK, elemTy := Ty.intTy 32,
    linkage := .externalL, visibility := .defaultVis, isConstant := false,
    threadLocal := false, initVal := none, symSection := none, align := 0,
    aliaseeSid := none, thunkDescr := none }

/-- A second global whose initializer points at the forward declaration. -/
def c1WOther : Symbol :=
  { sid := 1, name := "p", kind := .gvarK, elemTy := Ty.ptrTo (Ty.intTy 32),
    linkage := .internalL, visibility := .defaultVis, isConstant := false,
    threadLocal := false, initVal := some c1WGv.refC, symSection := none,
    align := 0, aliaseeSid := none, thunkDescr := none }

/-- Compilation state holding the forward declaration, a user of it, a
`llvm.used` root entry and a pending static constructor referring to it, and
a cache binding for its declaration. -/
def c1WState : CompState :=
  { emptyState with
    symbols := [c1WGv, c1WOther]
    nextId := 2
    attributeUsedGlobals := [c1WGv.refC]
    staticCtors := [(c1WGv.refC, 65535)]
    cache := fun t => if t = 5 then some c1WGv.refC else none }

/-- The completed initializer: an `int[100]` zero initializer whose type
disagrees with the declared element type. -/
def c1WInit : Const := Const.zeroinit (Ty.arrTy 100 (Ty.intTy 32))

/-- A function that collides with the name of the forward-declared variable
`c1WGv`. -/
def c1CFn : Symbol :=
  { sid := 1, name := "arr", kind := .funcK, elemTy := Ty.funcTy false,
    linkage := .externalL, visibility := .defaultVis, isConstant := false,
    threadLocal := false, initVal := none, symSection := none, align := 0,
    aliaseeSid := none, thunkDescr := none }

/-- Compilation state for the name-collision repair: the forward-declared
variable and the function displacing it. -/
def c1CState : CompState :=
  { emptyState with
    symbols := [c1WGv, c1CFn]
    nextId := 2 }

/-- **C1.** Whenever the forward-declaration repair protocol runs — either
`emit_global` finds the symbol's element type disagreeing with the converted
initializer's type (Backend.cpp lines 1030-1041, `repairGlobalForInit`), or
`make_decl_llvm` finds a name collision between a function and a forward
declared global variable (`resolveNameCollision`) — then afterwards the old
symbol is removed from the module, no surviving initializer references it,
every prior use of it has been redirected to a pointer-cast of the new
symbol, and the used/compiler-used root sets, the static constructor and
destructor lists, and the declaration identity cache hold the new constant
wherever they held the old one and retain no reference to the old symbol.
(The hypotheses say the state is well formed: ids are below the allocation
counter, and a root-set or ctor/dtor entry that references the old symbol is
the old symbol itself, as `changeLLVMConstant`'s equality test presumes.) -/
theorem c1_repair_protocol :
    (∀ (s : CompState) (t gid : Nat) (gv : Symbol) (initC : Const),
      findSymbol s gid = some gv →
      (∀ g ∈ s.symbols, g.sid < s.nextId) →
      (∀ c ∈ s.attributeUsedGlobals, c.refsGlobal gid = true → c = gv.refC) →
      (∀ c ∈ s.attributeCompilerUsedGlobals,
        c.refsGlobal gid = true → c = gv.refC) →
      (∀ p ∈ s.staticCtors, p.1.refsGlobal gid = true → p.1 = gv.refC) →
      (∀ p ∈ s.staticDtors, p.1.refsGlobal gid = true → p.1 = gv.refC) →
      (repairGlobalForInit s t gid gv initC).1 = s.nextId ∧
      (∀ g ∈ (repairGlobalForInit s t gid gv initC).2.symbols, g.sid ≠ gid) ∧
      (∃ g ∈ (repairGlobalForInit s t gid gv initC).2.symbols,
        g.sid = s.nextId ∧ g.elemTy = initC.typeOf) ∧
      (∀ g ∈ (repairGlobalForInit s t gid gv initC).2.symbols,
        ∀ c, g.initVal = some c → c.refsGlobal gid = false) ∧
      (∀ g ∈ s.symbols, g.sid ≠ gid →
        ∃ g2 ∈ (repairGlobalForInit s t gid gv initC).2.symbols,
          g2.sid = g.sid ∧ g2.initVal = g.initVal.map (Const.replaceRef gid
            (createBitCast (Const.globalRef s.nextId (Ty.ptrTo initC.typeOf))
              (Ty.ptrTo gv.elemTy)))) ∧
      (∀ c ∈ (repairGlobalForInit s t gid gv initC).2.attributeUsedGlobals,
        c.refsGlobal gid = false) ∧
      (gv.refC ∈ s.attributeUsedGlobals →
        Const.globalRef s.nextId (Ty.ptrTo initC.typeOf) ∈
          (repairGlobalForInit s t gid gv initC).2.attributeUsedGlobals) ∧
      (∀ c ∈ (repairGlobalForInit s t gid gv initC).2.attributeCompilerUsedGlobals,
        c.refsGlobal gid = false) ∧
      (gv.refC ∈ s.attributeCompilerUsedGlobals →
        Const.globalRef s.nextId (Ty.ptrTo initC.typeOf) ∈
          (repairGlobalForInit s t gid gv initC).2.attributeCompilerUsedGlobals) ∧
      ((repairGlobalForInit s t gid gv initC).2.staticCtors =
        s.staticCtors.map (fun p => if p.1 = gv.refC then
          (Const.globalRef s.nextId (Ty.ptrTo initC.typeOf), p.2) else p)) ∧
      (∀ p ∈ (repairGlobalForInit s t gid gv initC).2.staticCtors,
        p.1.refsGlobal gid = false) ∧
      ((repairGlobalForInit s t gid gv initC).2.staticDtors =
        s.staticDtors.map (fun p => if p.1 = gv.refC then
          (Const.globalRef s.nextId (Ty.ptrTo initC.typeOf), p.2) else p)) ∧
      (∀ p ∈ (repairGlobalForInit s t gid gv initC).2.staticDtors,
        p.1.refsGlobal gid = false) ∧
      (∀ dId c, (repairGlobalForInit s t gid gv initC).2.cache dId = some c →
        c.refsGlobal gid = false) ∧
      ((repairGlobalForInit s t gid gv initC).2.cache t =
        some (Const.globalRef s.nextId (Ty.ptrTo initC.typeOf)))) ∧
    (∀ (s : CompState) (newSid oldSid : Nat) (newG oldG : Symbol),
      findSymbol s newSid = some newG →
      findSymbol s oldSid = some oldG →
      newSid ≠ oldSid →
      (∀ c ∈ s.attributeUsedGlobals,
        c.refsGlobal oldSid = true → c = oldG.refC) →
      (∀ c ∈ s.attributeCompilerUsedGlobals,
        c.refsGlobal oldSid = true → c = oldG.refC) →
      (∀ p ∈ s.staticCtors, p.1.refsGlobal oldSid = true → p.1 = oldG.refC) →
      (∀ p ∈ s.staticDtors, p.1.refsGlobal oldSid = true → p.1 = oldG.refC) →
      (∀ g ∈ (resolveNameCollision s newSid oldSid).symbols, g.sid ≠ oldSid) ∧
      (∃ g ∈ (resolveNameCollision s newSid oldSid).symbols,
        g.sid = newSid ∧ g.name = oldG.name) ∧
      (∀ g ∈ (resolveNameCollision s newSid oldSid).symbols,
        ∀ c, g.initVal = some c → c.refsGlobal oldSid = false) ∧
      (∀ g ∈ s.symbols, g.sid ≠ oldSid →
        ∃ g2 ∈ (resolveNameCollision s newSid oldSid).symbols,
          g2.sid = g.sid ∧ g2.initVal = g.initVal.map (Const.replaceRef oldSid
            (createBitCast newG.refC (Ty.ptrTo oldG.elemTy)))) ∧
      (∀ c ∈ (resolveNameCollision s newSid oldSid).attributeUsedGlobals,
        c.refsGlobal oldSid = false) ∧
      (oldG.refC ∈ s.attributeUsedGlobals →
        createBitCast newG.refC (Ty.ptrTo oldG.elemTy) ∈
          (resolveNameCollision s newSid oldSid).attributeUsedGlobals) ∧
      (∀ c ∈ (resolveNameCollision s newSid oldSid).attributeCompilerUsedGlobals,
        c.refsGlobal oldSid = false) ∧
      (oldG.refC ∈ s.attributeCompilerUsedGlobals →
        createBitCast newG.refC (Ty.ptrTo oldG.elemTy) ∈
          (resolveNameCollision s newSid oldSid).attributeCompilerUsedGlobals) ∧
      ((resolveNameCollision s newSid oldSid).staticCtors =
        s.staticCtors.map (fun p => if p.1 = oldG.refC then
          (createBitCast newG.refC (Ty.ptrTo oldG.elemTy), p.2) else p)) ∧
      (∀ p ∈ (resolveNameCollision s newSid oldSid).staticCtors,
        p.1.refsGlobal oldSid = false) ∧
      ((resolveNameCollision s newSid oldSid).staticDtors =
        s.staticDtors.map (fun p => if p.1 = oldG.refC then
          (createBitCast newG.refC (Ty.ptrTo oldG.elemTy), p.2) else p)) ∧
      (∀ p ∈ (resolveNameCollision s newSid oldSid).staticDtors,
        p.1.refsGlobal oldSid = false) ∧
      (∀ dId c, (resolveNameCollision s newSid oldSid).cache dId = some c →
        c.refsGlobal oldSid = false)) := by
  constructor
  · intro s t gid gv initC h1 h2 h3 h4 h5 h6
    exact c1aux_repair s t gid gv initC h1 h2 h3 h4 h5 h6
  · intro s newSid oldSid newG oldG h1 h2 h3 h4 h5 h6 h7
    exact c1aux_collision s newSid oldSid newG oldG h1 h2 h3 h4 h5 h6 h7

/-- The repair protocol at a concrete completed array definition and a
concrete function/variable name collision: the cache ends bound to the new
symbol, and the old symbol is gone from the module. -/
theorem c1_repair_protocol_witness :
    ((repairGlobalForInit c1WState 5 0 c1WGv c1WInit).2.cache 5 =
      some (Const.globalRef c1WState.nextId (Ty.ptrTo c1WInit.typeOf))) ∧
    (∀ g ∈ (resolveNameCollision c1CState 1 0).symbols, g.sid ≠ 0) :=
  ⟨(c1_repair_protocol.1 c1WState 5 0 c1WGv c1WInit (by decide) (by decide)
      (by decide) (by decide) (by decide)
      (by decide)).2.2.2.2.2.2.2.2.2.2.2.2.2.2,
   (c1_repair_protocol.2 c1CState 1 0 c1CFn c1WGv (by decide) (by decide)
      (by decide) (by decide) (by decide) (by decide) (by decide)).1⟩

end Dragonegg
